import Mathlib

/-!
Verification of the multi-llm-ts orchestration core against its
specification. The definitions below are a shallow embedding of
src/providers/google.ts (which contains the Google adapter and the
OpenAI adapter) and src/providers/openrouter.ts. JavaScript numeric
option values are modelled as Option Int (absent fields are none);
JavaScript truthiness of a numeric option is "present and nonzero".
JSON.parse / JSON.stringify and the external tool registry are host
primitives, so functions that depend on them take them as parameters
(parse : String -> Option String may fail, stringify, registry).
-/

/-- JavaScript truthiness of an optional numeric field: a number is truthy
exactly when it is present and nonzero. -/
def truthyNum : Option Int → Bool
  | none => false
  | some v => v != 0

/-- JavaScript truthiness of an optional string field: a string is truthy
exactly when it is present and nonempty. -/
def truthyStr : Option String → Bool
  | none => false
  | some s => s != ""

/-- JavaScript String.startsWith over the character lists of the strings. -/
def strStartsWith (s p : String) : Bool :=
  p.toList.isPrefixOf s.toList

/-- Does the pattern occur as a contiguous run of the character list? -/
def containsSubstrAux (pat : List Char) : List Char → Bool
  | [] => pat.isEmpty
  | c :: rest => pat.isPrefixOf (c :: rest) || containsSubstrAux pat rest

/-- JavaScript String.includes over the character lists of the strings. -/
def containsSubstr (s pat : String) : Bool :=
  containsSubstrAux pat.toList s.toList

/-- Concatenation of the lists produced for each element, in order
(used to state flattening properties of the tool loop). -/
def concatMap {a b : Type} (f : a → List b) : List a → List b
  | [] => []
  | x :: xs => f x ++ concatMap f xs

/-- Message roles of the vendor-neutral payload (types/llm LlmRole). -/
inductive LlmRole
  | system
  | user
  | assistant
  | tool
deriving DecidableEq, Repr

/-- CompletionOptions recognised by both adapters (types/llm
LlmCompletionOpts restricted to the fields the orchestration reads). -/
structure LlmCompletionOpts where
  maxTokens : Option Int := none
  temperature : Option Int := none
  top_k : Option Int := none
  top_p : Option Int := none
  reasoningEffort : Option String := none
  tools : Option Bool := none
  usage : Bool := false
deriving DecidableEq, Repr

/-- Usage statistics returned to the caller (prompt/completion token
counters of LlmUsage). -/
structure UsageStats where
  prompt_tokens : Nat
  completion_tokens : Nat
deriving DecidableEq, Repr

/-- Google usageMetadata on a response or chunk. -/
structure UsageMetadata where
  promptTokenCount : Nat
  candidatesTokenCount : Nat
deriving DecidableEq, Repr

/-- A registered tool as seen through getAvailableTools (tool.function
name and description; the parameter schema is not read by any claim). -/
structure ToolSpec where
  name : String
  description : String
deriving DecidableEq, Repr

/-! ## OpenAI adapter: capability matrix (second half of google.ts) -/

/-- openai modelIsReasoning: reasoning models start with the letter o. -/
def modelIsReasoning (model : String) : Bool :=
  strStartsWith model "o"

/-- openai modelAcceptsSystemRole: o1 models do not accept a system role. -/
def modelAcceptsSystemRole (model : String) : Bool :=
  !(strStartsWith model "o1")

/-- openai modelSupportsTools: o1- and chatgpt- models do not support tools. -/
def modelSupportsTools (model : String) : Bool :=
  !(strStartsWith model "o1-") && !(strStartsWith model "chatgpt-")

/-- openrouter override of modelSupportsTools: every model supports tools. -/
def openrouterModelSupportsTools (_model : String) : Bool :=
  true

/-- openai modelSupportsMaxTokens: every model supports maxTokens. -/
def modelSupportsMaxTokens (_model : String) : Bool :=
  true

/-- openai modelSupportsTemperature: reasoning models do not. -/
def modelSupportsTemperature (model : String) : Bool :=
  !(modelIsReasoning model)

/-- openai modelSupportsTopP: reasoning models do not. -/
def modelSupportsTopP (model : String) : Bool :=
  !(modelIsReasoning model)

/-- openai modelSupportsTopK: reasoning models do not. -/
def modelSupportsTopK (model : String) : Bool :=
  !(modelIsReasoning model)

/-- openai modelSupportsReasoningEffort: only reasoning models do. -/
def modelSupportsReasoningEffort (model : String) : Bool :=
  modelIsReasoning model

/-- openai systemRole getter (the source returns 'system'; the 'developer'
alternative is commented out). -/
def openaiSystemRole : LlmRole := LlmRole.system

/-! ## OpenAI adapter: request construction -/

/-- The sampling/reasoning fields of the outgoing OpenAI chat request
(the spread produced by getCompletionOpts). A none field is absent
from the request object. -/
structure OpenAICompletionOpts where
  max_completion_tokens : Option Int := none
  temperature : Option Int := none
  logprobs : Bool := false
  top_logprobs : Option Int := none
  top_p : Option Int := none
  reasoning_effort : Option String := none
deriving DecidableEq, Repr

/-- openai getCompletionOpts: each option is spread into the request only
when the model supports it and the value is truthy (so zero is dropped). -/
def getCompletionOpts (model : String) (opts : LlmCompletionOpts) : OpenAICompletionOpts :=
  { max_completion_tokens :=
      if modelSupportsMaxTokens model && truthyNum opts.maxTokens then opts.maxTokens else none,
    temperature :=
      if modelSupportsTemperature model && truthyNum opts.temperature then opts.temperature else none,
    logprobs := modelSupportsTopK model && truthyNum opts.top_k,
    top_logprobs :=
      if modelSupportsTopK model && truthyNum opts.top_k then opts.top_k else none,
    top_p :=
      if modelSupportsTopP model && truthyNum opts.top_p then opts.top_p else none,
    reasoning_effort :=
      if modelSupportsReasoningEffort model && truthyStr opts.reasoningEffort then opts.reasoningEffort else none }

/-- openai getFunctionCallingOptions, parameterised by the dynamically
dispatched modelSupportsTools predicate (openrouter overrides it).
Returns the tool declarations spread into the request, or none when the
spread is empty: tools are disabled when explicitly disabled or top_k is
not provided, or the model does not support tools; otherwise the
declarations are included when at least one tool is available. -/
def getFunctionCallingOptions (supportsTools : String → Bool)
    (availableTools : List ToolSpec) (model : String) (opts : LlmCompletionOpts) :
    Option (List ToolSpec) :=
  if (opts.tools == some false || opts.top_k == none) || !(supportsTools model) then
    none
  else if availableTools.length != 0 then
    some availableTools
  else
    none

/-- The outgoing OpenAI chat.completions.create request assembled by chat
and doStream: model, messages, the completion-opts spread and the
function-calling spread. -/
structure OAIChatRequest (msg : Type) where
  model : String
  messages : List msg
  completionOpts : OpenAICompletionOpts
  toolDecls : Option (List ToolSpec)
deriving DecidableEq, Repr

/-- Assembly of the outgoing OpenAI request from its pieces, as done at the
create call sites in chat and doStream. -/
def openaiChatRequest {msg : Type} (supportsTools : String → Bool)
    (availableTools : List ToolSpec) (model : String) (messages : List msg)
    (opts : LlmCompletionOpts) : OAIChatRequest msg :=
  { model := model,
    messages := messages,
    completionOpts := getCompletionOpts model opts,
    toolDecls := getFunctionCallingOptions supportsTools availableTools model opts }

/-! ## Google adapter: capability matrix and request construction -/

/-- google modelStartsWith helper. -/
def modelStartsWith (model : String) (pre : List String) : Bool :=
  pre.any (fun p => strStartsWith model p)

/-- google supportsInstructions: models/gemini-pro models do not take a
systemInstruction. -/
def supportsInstructions (model : String) : Bool :=
  modelStartsWith model ["models/gemini-pro"] == false

/-- google supportsTools: thinking models do not support function calling. -/
def supportsTools (model : String) : Bool :=
  containsSubstr model "thinking" == false

/-- A function declaration built from an available tool (the claim-relevant
fields of the declaration built in getModel). -/
structure FunctionDeclaration where
  name : String
  description : String
deriving DecidableEq, Repr

/-- The claim-relevant part of the Google ModelParams built by getModel:
the model id, the optional systemInstruction, and the optional tool
declarations (none when the toolConfig/tools fields are not set). -/
structure GoogleModelParams where
  model : String
  systemInstruction : Option String := none
  tools : Option (List FunctionDeclaration) := none
deriving DecidableEq, Repr

/-- google getModel: builds ModelParams; function calling is enabled when
top_k is provided or the tools flag is true, and the model supports
tools, and at least one function declaration was built. -/
def getModel (availableTools : List ToolSpec) (model instructions : String)
    (opts : LlmCompletionOpts) : GoogleModelParams :=
  let functionDeclarations : List FunctionDeclaration :=
    availableTools.map (fun tool => { name := tool.name, description := tool.description })
  { model := model,
    systemInstruction := if supportsInstructions model then some instructions else none,
    tools :=
      if (opts.tools == some true || !(opts.top_k == none)) && supportsTools model
          && functionDeclarations.length > 0 then
        some functionDeclarations
      else
        none }

/-- google GenerationConfig fields (a none field is absent). -/
structure GenerationConfig where
  maxOutputTokens : Option Int := none
  temperature : Option Int := none
  topK : Option Int := none
  topP : Option Int := none
deriving DecidableEq, Repr

/-- A GenerationConfig with no keys set. -/
def GenerationConfig.noKeys (c : GenerationConfig) : Bool :=
  c.maxOutputTokens == none && c.temperature == none && c.topK == none && c.topP == none

/-- google getGenerationConfig: each option is spread in only when truthy
(so zero is dropped), and undefined is returned when no key was set. -/
def getGenerationConfig (opts : LlmCompletionOpts) : Option GenerationConfig :=
  let config : GenerationConfig :=
    { maxOutputTokens := if truthyNum opts.maxTokens then opts.maxTokens else none,
      temperature := if truthyNum opts.temperature then opts.temperature else none,
      topK := if truthyNum opts.top_k then opts.top_k else none,
      topP := if truthyNum opts.top_p then opts.top_p else none }
  if config.noKeys then none else some config

/-! ## Payload building (system-role handling) -/

/-- A vendor-neutral payload unit (LLmCompletionPayload: role, textual
content, optional inlined images). -/
structure LLmCompletionPayload where
  role : LlmRole
  content : String := ""
  images : List String := []
deriving DecidableEq, Repr

/-- openai buildPayload: the payload produced by the engine's base builder
(passed in, since the base class is outside this file's sources) is
filtered of system messages when the model does not accept the system
role; otherwise, if the adapter's system role were not 'system', system
messages would be remapped to it. -/
def openaiBuildPayload (model : String) (basePayload : List LLmCompletionPayload) :
    List LLmCompletionPayload :=
  if !(modelAcceptsSystemRole model) then
    basePayload.filter (fun msg => msg.role != LlmRole.system)
  else if openaiSystemRole != LlmRole.system then
    basePayload.map (fun msg =>
      if msg.role == LlmRole.system then { msg with role := openaiSystemRole } else msg)
  else
    basePayload

/-- A part of a Google Content unit. The args of a functionCall part and
the response of a functionResponse part are opaque strings. -/
inductive GPart
  | text (s : String)
  | inlineData (mimeType data : String)
  | functionCall (name : String) (args : String)
  | functionResponse (name : String) (response : String)
deriving DecidableEq, Repr

/-- A Google Content unit: the backend-native role string and parts. -/
structure GContent where
  role : String
  parts : List GPart
deriving DecidableEq, Repr

/-- Backend-native spelling of a payload role (google Content role,
with assistant translated by messageToContent). -/
def roleString : LlmRole → String
  | LlmRole.system => "system"
  | LlmRole.user => "user"
  | LlmRole.assistant => "assistant"
  | LlmRole.tool => "tool"

/-- google messageToContent: assistant becomes the native model role; the
text is the first part and each image becomes an inlineData part. -/
def messageToContent (payload : LLmCompletionPayload) : GContent :=
  { role := if payload.role == LlmRole.assistant then "model" else roleString payload.role,
    parts := GPart.text payload.content ::
      payload.images.map (fun img => GPart.inlineData "image/png" img) }

/-- google threadToHistory, parameterised by the engine's base buildPayload
(outside this file's sources): when the model takes instructions the
first thread message is dropped (it becomes the systemInstruction),
any remaining system-role unit is remapped to user, and each unit is
converted to a Content. -/
def threadToHistory {m : Type} (buildPayload : List m → List LLmCompletionPayload)
    (thread : List m) (modelName : String) : List GContent :=
  let hasInstructions := supportsInstructions modelName
  let payload := (buildPayload (thread.drop (if hasInstructions then 1 else 0))).map
    (fun p => if p.role == LlmRole.system then { p with role := LlmRole.user } else p)
  payload.map messageToContent

/-! ## Non-streaming chat loops -/

/-- A tool call reported by a Google response (functionCalls entry: the
function name and its already-parsed args, opaque here). -/
structure GoogleFunctionCall where
  name : String
  args : String
deriving DecidableEq, Repr

/-- One Google backend response inside a turn (one hop): the reported
function calls, the text, the announcement parts of the first
candidate, and the optional usageMetadata. -/
structure GoogleHop where
  functionCalls : List GoogleFunctionCall
  text : String := ""
  parts : List GPart := []
  usageMetadata : Option UsageMetadata := none
deriving DecidableEq, Repr

/-- A completed tool call surfaced to the caller (LlmToolCallInfo: name,
params and the registry's result). -/
structure LlmToolCallInfo where
  name : String
  params : String
  result : String
deriving DecidableEq, Repr

/-- The aggregate result of a turn (LlmResponse: text content, the tool
calls of all hops, and the optional cumulated usage). -/
structure LlmResponse where
  content : String
  toolCalls : List LlmToolCallInfo
  usage : Option UsageStats := none
deriving DecidableEq, Repr

/-- google chat, driven by the list of successive backend responses (one
per hop, supplied by the transport): at a response with no function
calls the aggregate result is returned (with usage only when tracking
is on and the backend reported it); otherwise every call is executed
through the registry, the announcement and the tool results are pushed
onto the thread, the next response is consumed recursively, the hop's
tool-call info is prepended, and the hop's usage is added into the
completion's usage only when tracking is on and both this hop and the
completion carry usage. none means the transport ran out of responses
while another request was needed. -/
def googleChat (registry : String → String → String) (opts : LlmCompletionOpts) :
    List GoogleHop → List GContent → Option LlmResponse
  | [], _ => none
  | hop :: rest, thread =>
    if hop.functionCalls.isEmpty then
      some { content := hop.text,
             toolCalls := [],
             usage :=
               if opts.usage then
                 hop.usageMetadata.map (fun u =>
                   { prompt_tokens := u.promptTokenCount,
                     completion_tokens := u.candidatesTokenCount })
               else none }
    else
      let toolCallInfo := hop.functionCalls.map (fun tc =>
        { name := tc.name, params := tc.args, result := registry tc.name tc.args })
      let results := hop.functionCalls.map (fun tc =>
        GPart.functionResponse tc.name (registry tc.name tc.args))
      let thread2 := thread ++
        [{ role := "assistant", parts := hop.parts }, { role := "tool", parts := results }]
      match googleChat registry opts rest thread2 with
      | none => none
      | some completion =>
        some { completion with
          toolCalls := toolCallInfo ++ completion.toolCalls,
          usage :=
            match opts.usage, hop.usageMetadata, completion.usage with
            | true, some u, some c =>
              some { prompt_tokens := c.prompt_tokens + u.promptTokenCount,
                     completion_tokens := c.completion_tokens + u.candidatesTokenCount }
            | _, _, _ => completion.usage }

/-- A tool call carried by an OpenAI non-streaming response message
(id, function name, serialized arguments). -/
structure OpenAIToolCall where
  id : String
  name : String
  arguments : String
deriving DecidableEq, Repr

/-- One OpenAI backend response inside a turn: the first choice's
finish_reason, message content, tool_calls, and the response usage. -/
structure OpenAIHop where
  finish_reason : Option String := none
  content : Option String := none
  tool_calls : List OpenAIToolCall := []
  usage : Option UsageStats := none
deriving DecidableEq, Repr

/-- Messages appended to the thread by the OpenAI non-streaming loop. -/
inductive OAIChatMsg
  | assistantToolCalls (tool_calls : List OpenAIToolCall)
  | toolResult (tool_call_id : String) (name : String) (content : String)
deriving DecidableEq, Repr

/-- The per-call body of the OpenAI non-streaming tool loop: parse the
serialized arguments (an invalid JSON failure is thrown, aborting the
turn), execute through the registry, and produce the tool-call info and
the tool-response thread message for each call in order. -/
def openaiProcessCalls (parse : String → Option String) (registry : String → String → String) :
    List OpenAIToolCall → Except String (List LlmToolCallInfo × List OAIChatMsg)
  | [] => Except.ok ([], [])
  | tc :: rest =>
    match parse tc.arguments with
    | none => Except.error ("tool call " ++ tc.name ++ " with invalid JSON args: " ++ tc.arguments)
    | some args =>
      let content := registry tc.name args
      match openaiProcessCalls parse registry rest with
      | Except.error e => Except.error e
      | Except.ok (infos, msgs) =>
        Except.ok ({ name := tc.name, params := args, result := content } :: infos,
          OAIChatMsg.toolResult tc.id tc.name content :: msgs)

/-- openai chat, driven by the list of successive backend responses: when
the first choice finishes with tool_calls, the choice message is pushed,
every call is parsed and executed (a parse failure throws), the tool
responses are pushed, the next response is consumed recursively, the
hop's tool-call info is prepended and — only when tracking is on and
both the hop and the completion carry usage — the hop's prompt_tokens
is added into the completion's usage; the source never adds the hop's
completion_tokens (only nested detail counters, not modelled here), so
the completion's completion_tokens is kept as is. Otherwise the
aggregate result is returned, with usage only when tracking is on and
the backend reported it. -/
def openaiChat (parse : String → Option String) (registry : String → String → String)
    (opts : LlmCompletionOpts) :
    List OpenAIHop → List OAIChatMsg → Except String LlmResponse
  | [], _ => Except.error "no response"
  | hop :: rest, thread =>
    if hop.finish_reason == some "tool_calls" then
      let thread1 := thread ++ [OAIChatMsg.assistantToolCalls hop.tool_calls]
      match openaiProcessCalls parse registry hop.tool_calls with
      | Except.error e => Except.error e
      | Except.ok (toolCallInfo, toolMsgs) =>
        match openaiChat parse registry opts rest (thread1 ++ toolMsgs) with
        | Except.error e => Except.error e
        | Except.ok completion =>
          Except.ok { completion with
            toolCalls := toolCallInfo ++ completion.toolCalls,
            usage :=
              match opts.usage, hop.usage, completion.usage with
              | true, some u, some c =>
                some { prompt_tokens := c.prompt_tokens + u.prompt_tokens,
                       completion_tokens := c.completion_tokens }
              | _, _, _ => completion.usage }
    else
      Except.ok { content := hop.content.getD "",
                  toolCalls := [],
                  usage := if opts.usage then hop.usage else none }

/-! ## Streaming: shared chunk vocabulary -/

/-- The normalized ChunkEvent vocabulary yielded by nativeChunkToLlmChunk
(LlmChunk): content and reasoning text with a done flag, tool status
and tool completion events for a named tool, the switch to a freshly
opened backend stream, and a usage report. -/
inductive LlmChunkEv
  | content (text : String) (done : Bool)
  | reasoning (text : String) (done : Bool)
  | tool (name : String) (done : Bool)
  | streamSwitch
  | usage (u : UsageStats)
deriving DecidableEq, Repr

/-- Is the event a content event? -/
def LlmChunkEv.isContent : LlmChunkEv → Bool
  | LlmChunkEv.content _ _ => true
  | _ => false

/-- Is the event a content event whose done flag is set? -/
def LlmChunkEv.isContentDone : LlmChunkEv → Bool
  | LlmChunkEv.content _ d => d
  | _ => false

/-- Is the event a usage event? -/
def LlmChunkEv.isUsage : LlmChunkEv → Bool
  | LlmChunkEv.usage _ => true
  | _ => false

/-- The output of translating one native chunk: the yielded events, the
streaming context after the chunk, the registry invocations performed
(name and parsed args, in execution order), and the error thrown, if
any (none when the generator completed normally). -/
structure StepOut (ctx : Type) where
  events : List LlmChunkEv
  ctx : ctx
  invocations : List (String × String)
  err : Option String
deriving Repr

/-! ## Streaming: Google adapter -/

/-- An in-flight ToolCallRecord of the Google adapter (LlmToolCall: the id
is the function name, message is empty, args are the stringified call
args). -/
structure GoogleLlmToolCall where
  id : String
  message : String := ""
  function : String
  args : String
deriving DecidableEq, Repr

/-- GoogleStreamingContext: the thread snapshot (Content list), the
options, and the in-flight tool-call accumulator. -/
structure GoogleStreamingContext where
  content : List GContent
  opts : LlmCompletionOpts
  toolCalls : List GoogleLlmToolCall
deriving Repr

/-- google doStream: resets the tool-call accumulator and issues a new
backend stream for the current thread snapshot. -/
def googleDoStream (context : GoogleStreamingContext) : GoogleStreamingContext :=
  { context with toolCalls := [] }

/-- One native Google streaming chunk: the reported function calls, the
chunk text, the first candidate's finishReason and announcement parts,
and the optional usageMetadata. -/
structure GoogleChunk where
  functionCalls : List GoogleFunctionCall
  text : String := ""
  finishReason : Option String := none
  parts : List GPart := []
  usageMetadata : Option UsageMetadata := none
deriving DecidableEq, Repr

/-- The accumulator records built by the Google translator from a chunk's
function calls (the id is the function name; the args are stringified). -/
def googleToolCallRecords (stringify : String → String) (chunk : GoogleChunk) :
    List GoogleLlmToolCall :=
  chunk.functionCalls.map (fun tc =>
    { id := tc.name, message := "", function := tc.name, args := stringify tc.args })

/-- The per-call body of the Google streaming tool loop, over the
accumulated records: yield a preparation status, parse the serialized
args (a JSON failure is thrown there, after the preparation event),
yield a running status, execute through the registry, collect the
functionResponse part, and yield the tool completion event. -/
def googleToolLoop (parse : String → Option String) (registry : String → String → String) :
    List GoogleLlmToolCall → List LlmChunkEv × List GPart × List (String × String) × Option String
  | [] => ([], [], [], none)
  | tc :: rest =>
    let prepEv := LlmChunkEv.tool tc.function false
    match parse tc.args with
    | none => ([prepEv], [], [], some ("tool call " ++ tc.function ++ " with invalid JSON args"))
    | some args =>
      let content := registry tc.function args
      let (evs, results, invs, err) := googleToolLoop parse registry rest
      (prepEv :: LlmChunkEv.tool tc.function false :: LlmChunkEv.tool tc.function true :: evs,
       GPart.functionResponse tc.function content :: results,
       (tc.function, args) :: invs,
       err)

/-- google nativeChunkToLlmChunk: on a chunk with function calls, store
them in the accumulator, run the tool loop (a parse failure aborts
mid-loop), push the assistant announcement and the tool results onto
the thread, open a brand-new stream (which resets the accumulator) and
yield the stream-switch event last; on a text chunk, yield one content
event whose done flag mirrors the finishReason, followed by one usage
event only when done, tracking is on, and the chunk carried usage. -/
def googleNativeChunkToLlmChunk (stringify : String → String) (parse : String → Option String)
    (registry : String → String → String) (chunk : GoogleChunk)
    (context : GoogleStreamingContext) : StepOut GoogleStreamingContext :=
  if !chunk.functionCalls.isEmpty then
    let context1 := { context with toolCalls := googleToolCallRecords stringify chunk }
    let (evs, results, invs, err) := googleToolLoop parse registry context1.toolCalls
    match err with
    | some e => { events := evs, ctx := context1, invocations := invs, err := some e }
    | none =>
      let context2 := { context1 with content := context1.content ++
        [{ role := "assistant", parts := chunk.parts }, { role := "tool", parts := results }] }
      let context3 := googleDoStream context2
      { events := evs ++ [LlmChunkEv.streamSwitch], ctx := context3,
        invocations := invs, err := none }
  else
    let done := chunk.finishReason.isSome
    let usageEvs :=
      match done, context.opts.usage, chunk.usageMetadata with
      | true, true, some u =>
        [LlmChunkEv.usage
          { prompt_tokens := u.promptTokenCount, completion_tokens := u.candidatesTokenCount }]
      | _, _, _ => []
    { events := LlmChunkEv.content chunk.text done :: usageEvs, ctx := context,
      invocations := [], err := none }

/-- Folding the Google translator over a native chunk sequence: events are
concatenated in order; a thrown error aborts the remainder of the turn. -/
def googleRunChunks (stringify : String → String) (parse : String → Option String)
    (registry : String → String → String) :
    List GoogleChunk → GoogleStreamingContext → StepOut GoogleStreamingContext
  | [], context => { events := [], ctx := context, invocations := [], err := none }
  | chunk :: rest, context =>
    let out := googleNativeChunkToLlmChunk stringify parse registry chunk context
    match out.err with
    | some e => { out with err := some e }
    | none =>
      let out2 := googleRunChunks stringify parse registry rest out.ctx
      { events := out.events ++ out2.events, ctx := out2.ctx,
        invocations := out.invocations ++ out2.invocations, err := out2.err }

/-! ## Streaming: OpenAI adapter -/

/-- An incremental function fragment inside a streamed tool-call delta. -/
structure OAIFunctionDelta where
  name : Option String := none
  arguments : Option String := none
deriving DecidableEq, Repr

/-- A streamed tool-call delta (choices[0].delta.tool_calls entry). -/
structure OAIToolCallDelta where
  id : Option String := none
  function : Option OAIFunctionDelta := none
deriving DecidableEq, Repr

/-- An in-flight ToolCallRecord of the OpenAI adapter (LlmToolCall: the
backend id, the recorded delta message, the function name and the
accumulated serialized arguments). -/
structure OpenAILlmToolCall where
  id : String
  message : List OAIToolCallDelta
  function : String
  args : String
deriving DecidableEq, Repr

/-- The delta carried by a streamed choice. -/
structure OAIDelta where
  content : Option String := none
  reasoning_content : Option String := none
  tool_calls : List OAIToolCallDelta := []
deriving DecidableEq, Repr

/-- A streamed choice: its delta and finish_reason. -/
structure OAIChoice where
  delta : OAIDelta := {}
  finish_reason : Option String := none
deriving DecidableEq, Repr

/-- One native OpenAI streaming chunk. -/
structure OpenAIChunk where
  choices : List OAIChoice := []
  usage : Option UsageStats := none
deriving DecidableEq, Repr

/-- Messages appended to the streaming thread by the OpenAI tool loop. -/
inductive OAIStreamMsg
  | assistantToolCalls (tool_calls : List OAIToolCallDelta)
  | toolResult (tool_call_id : String) (name : String) (content : String)
  | payload (p : LLmCompletionPayload)
deriving DecidableEq, Repr

/-- OpenAIStreamingContext: the model, the thread snapshot, the options,
the in-flight tool-call accumulator, and the persisted done flag. -/
structure OpenAIStreamingContext where
  model : String
  thread : List OAIStreamMsg
  opts : LlmCompletionOpts
  toolCalls : List OpenAILlmToolCall
  done : Bool
deriving Repr

/-- openai doStream: resets the tool-call accumulator and issues a new
backend stream for the current thread snapshot. -/
def openaiDoStream (context : OpenAIStreamingContext) : OpenAIStreamingContext :=
  { context with toolCalls := [] }

/-- The finish_reason string of a chunk's first choice, defaulted to the
empty string as at the comparison sites. -/
def oaiChunkFinish (chunk : OpenAIChunk) : String :=
  ((chunk.choices.head?.bind (fun c => c.finish_reason)).getD "")

/-- The first tool-call delta of a chunk's first choice, if any. -/
def oaiChunkToolCallDelta (chunk : OpenAIChunk) : Option OAIToolCallDelta :=
  chunk.choices.head?.bind (fun c => c.delta.tool_calls.head?)

/-- Rewrite the arguments recorded in the last delta of a tool-call
record's message, as done when an id-less argument fragment arrives. -/
def setLastArguments (msgs : List OAIToolCallDelta) (args : String) : List OAIToolCallDelta :=
  match msgs.getLast? with
  | none => msgs
  | some m =>
    msgs.dropLast ++ [{ m with function := some { (m.function.getD {}) with arguments := some args } }]

/-- In-place update of the first record with the given id, as the mutation
of the record returned by find does. -/
def updateFirstById (i : String) (f : OpenAILlmToolCall → OpenAILlmToolCall) :
    List OpenAILlmToolCall → List OpenAILlmToolCall
  | [] => []
  | tc :: rest => if tc.id == i then f tc :: rest else tc :: updateFirstById i f rest

/-- The accumulation step of the OpenAI translator for a chunk carrying a
tool-call delta with a function field: a delta with a fresh non-empty
id opens a new record (and yields the preparation status); a delta
whose id matches an open record appends to its arguments; an id-less
delta appends to the most recently opened record, and throws when no
record is open. -/
def openaiAccumulateToolCall (tcd : OAIToolCallDelta) (deltas : List OAIToolCallDelta)
    (toolCalls : List OpenAILlmToolCall) :
    List LlmChunkEv × List OpenAILlmToolCall × Option String :=
  let argFrag := (tcd.function.bind (fun f => f.arguments)).getD ""
  match tcd.id with
  | some i =>
    if i != "" then
      match toolCalls.find? (fun tc => tc.id == i) with
      | some _ =>
        ([], updateFirstById i (fun tc => { tc with args := tc.args ++ argFrag }) toolCalls, none)
      | none =>
        let toolCall : OpenAILlmToolCall :=
          { id := i, message := deltas,
            function := (tcd.function.bind (fun f => f.name)).getD "",
            args := argFrag }
        ([LlmChunkEv.tool toolCall.function false], toolCalls ++ [toolCall], none)
    else
      match toolCalls.getLast? with
      | none => ([], toolCalls, some "TypeError: no open tool call to append arguments to")
      | some last =>
        let newArgs := last.args ++ argFrag
        (([] : List LlmChunkEv),
         toolCalls.dropLast ++
           [{ last with args := newArgs, message := setLastArguments last.message newArgs }],
         none)
  | none =>
    match toolCalls.getLast? with
    | none => ([], toolCalls, some "TypeError: no open tool call to append arguments to")
    | some last =>
      let newArgs := last.args ++ argFrag
      (([] : List LlmChunkEv),
       toolCalls.dropLast ++
         [{ last with args := newArgs, message := setLastArguments last.message newArgs }],
       none)

/-- The per-record body of the OpenAI streaming tool loop: parse the
accumulated serialized arguments (an invalid JSON failure is thrown
there, before any status event for that call), yield the running
status, execute through the registry, push the assistant announcement
and the tool response onto the thread, and yield the tool completion
event; messages pushed by calls completed before a failure remain. -/
def openaiStreamToolLoop (parse : String → Option String) (registry : String → String → String) :
    List OpenAILlmToolCall →
    List LlmChunkEv × List OAIStreamMsg × List (String × String) × Option String
  | [] => ([], [], [], none)
  | tc :: rest =>
    match parse tc.args with
    | none =>
      ([], [], [], some ("tool call " ++ tc.function ++ " with invalid JSON args: " ++ tc.args))
    | some args =>
      let content := registry tc.function args
      let (evs, msgs, invs, err) := openaiStreamToolLoop parse registry rest
      (LlmChunkEv.tool tc.function false :: LlmChunkEv.tool tc.function true :: evs,
       OAIStreamMsg.assistantToolCalls tc.message ::
         OAIStreamMsg.toolResult tc.id tc.function content :: msgs,
       (tc.function, args) :: invs,
       err)

/-- The finish_reason values that trigger the streaming tool loop. -/
def oaiToolFinishSet : List String := ["tool_calls", "function_call", "stop"]

/-- The finish_reason values that set the done flag. -/
def oaiDoneSet : List String := ["stop", "length", "content_filter", "eos"]

/-- The accumulation stage of openai nativeChunkToLlmChunk: the first
tool-call delta of the chunk, if any, is folded into the accumulator
(the translator falls through afterwards, as the returns in the
source are commented out). -/
def openaiAccStep (chunk : OpenAIChunk) (context : OpenAIStreamingContext) :
    List LlmChunkEv × List OpenAILlmToolCall × Option String :=
  match oaiChunkToolCallDelta chunk with
  | some tcd =>
    if tcd.function.isSome then
      openaiAccumulateToolCall tcd
        ((chunk.choices.head?.map (fun c => c.delta.tool_calls)).getD [])
        context.toolCalls
    else
      ([], context.toolCalls, none)
  | none => ([], context.toolCalls, none)

/-- The reasoning event emitted by the OpenAI translator for a chunk: one
reasoning event when the first choice's delta carries a truthy
reasoning_content. -/
def oaiReasoningEvs (chunk : OpenAIChunk) (done : Bool) : List LlmChunkEv :=
  match chunk.choices.head? with
  | some c =>
    if truthyStr c.delta.reasoning_content then
      [LlmChunkEv.reasoning (c.delta.reasoning_content.getD "") done]
    else []
  | none => []

/-- The content event emitted by the OpenAI translator for a chunk: one
content event when the first choice's delta carries truthy content or
the chunk is done. -/
def oaiContentEvs (chunk : OpenAIChunk) (done : Bool) : List LlmChunkEv :=
  match chunk.choices.head? with
  | some c =>
    if truthyStr c.delta.content || done then
      [LlmChunkEv.content (c.delta.content.getD "") done]
    else []
  | none => []

/-- The part of the OpenAI translator that runs after a successful
accumulation step: the tool-execution branch when the finish_reason
signals completion and records are pending, the event emission branch
otherwise. -/
def openaiChunkMain (parse : String → Option String)
    (registry : String → String → String) (chunk : OpenAIChunk)
    (accEvs : List LlmChunkEv) (context1 : OpenAIStreamingContext) :
    StepOut OpenAIStreamingContext :=
  if oaiToolFinishSet.contains (oaiChunkFinish chunk) && !context1.toolCalls.isEmpty then
    let (evs, msgs, invs, err) := openaiStreamToolLoop parse registry context1.toolCalls
    let context2 := { context1 with thread := context1.thread ++ msgs }
    match err with
    | some e =>
      { events := accEvs ++ evs, ctx := context2, invocations := invs, err := some e }
    | none =>
      let context3 := openaiDoStream context2
      { events := accEvs ++ evs ++ [LlmChunkEv.streamSwitch], ctx := context3,
        invocations := invs, err := none }
  else
    let done := oaiDoneSet.contains (oaiChunkFinish chunk)
    let context2 := if done then { context1 with done := true } else context1
    let reasoningEvs := oaiReasoningEvs chunk done
    let contentEvs := oaiContentEvs chunk done
    let usageEvs :=
      if context1.opts.usage && context2.done then
        match chunk.usage with
        | some u => [LlmChunkEv.usage u]
        | none => []
      else []
    { events := accEvs ++ reasoningEvs ++ contentEvs ++ usageEvs, ctx := context2,
      invocations := [], err := none }

/-- openai nativeChunkToLlmChunk: the accumulation stage runs first (a
thrown TypeError aborts the turn there); then, when the finish_reason
signals completion and records are pending, the tool loop runs, the
thread grows, a brand-new stream is opened (resetting the accumulator)
and the stream-switch event is yielded last; otherwise the done flag
is latched into the context, reasoning and content events are yielded
as the deltas and the done flag dictate, and a usage event is yielded
only when tracking is on, the context is done, and the chunk carried
usage. -/
def openaiNativeChunkToLlmChunk (parse : String → Option String)
    (registry : String → String → String) (chunk : OpenAIChunk)
    (context : OpenAIStreamingContext) : StepOut OpenAIStreamingContext :=
  let (accEvs, toolCalls1, accErr) := openaiAccStep chunk context
  let context1 := { context with toolCalls := toolCalls1 }
  match accErr with
  | some e => { events := accEvs, ctx := context1, invocations := [], err := some e }
  | none => openaiChunkMain parse registry chunk accEvs context1

/-- Folding the OpenAI translator over a native chunk sequence: events are
concatenated in order; a thrown error aborts the remainder of the turn. -/
def openaiRunChunks (parse : String → Option String) (registry : String → String → String) :
    List OpenAIChunk → OpenAIStreamingContext → StepOut OpenAIStreamingContext
  | [], context => { events := [], ctx := context, invocations := [], err := none }
  | chunk :: rest, context =>
    let out := openaiNativeChunkToLlmChunk parse registry chunk context
    match out.err with
    | some e => { out with err := some e }
    | none =>
      let out2 := openaiRunChunks parse registry rest out.ctx
      { events := out.events ++ out2.events, ctx := out2.ctx,
        invocations := out.invocations ++ out2.invocations, err := out2.err }

/-! ## Fixed inputs used by witnesses and counterexamples -/

/-- A registered tool used as a concrete input. -/
def toolW : ToolSpec := { name := "get_weather", description := "get the weather" }

/-- Options with every recognised option set to a truthy value. -/
def optsAllSet : LlmCompletionOpts :=
  { maxTokens := some 100, temperature := some 7, top_k := some 40, top_p := some 9,
    reasoningEffort := some "high", tools := some true, usage := true }


/-- The option whose isSome the injection conditions produce: some x when
the boolean holds, none otherwise. -/
theorem isSome_ite_some_none {a : Type} (c : Bool) (x : a) :
    (if c then some x else none).isSome = c := by
  cases c <;> simp

/-! ## C1 -/

/-- C1 counterexample: with the explicit tools flag true, top_k absent, a
tool-supporting model and a non-empty registry, the OpenAI adapter's
getFunctionCallingOptions injects no tool declarations — refuting the
claim that for any such options the request carries the declarations. -/
theorem C1_counterexample :
    ({ tools := some true } : LlmCompletionOpts).tools = some true
  ∧ ({ tools := some true } : LlmCompletionOpts).top_k = none
  ∧ modelSupportsTools "gpt-4o" = true
  ∧ getFunctionCallingOptions modelSupportsTools [toolW] "gpt-4o" { tools := some true } = none := by
  refine ⟨rfl, rfl, by decide, by decide⟩

/-- C1 (amended): tool declarations are injected by the Google adapter
exactly when the tools flag is true or top_k is present, the model
supports tools, and a tool is registered; the OpenAI adapter instead
requires top_k to be present and the flag not to be false (so the
explicit flag alone never injects); openrouter behaves as the OpenAI
adapter with every model treated as tool-supporting. -/
theorem C1_amended (availableTools : List ToolSpec) (model instructions : String)
    (opts : LlmCompletionOpts) :
    ((getModel availableTools model instructions opts).tools.isSome = true ↔
       ((opts.tools = some true ∨ opts.top_k ≠ none) ∧ supportsTools model = true
         ∧ availableTools ≠ []))
  ∧ ((getFunctionCallingOptions modelSupportsTools availableTools model opts).isSome = true ↔
       (opts.tools ≠ some false ∧ opts.top_k ≠ none ∧ modelSupportsTools model = true
         ∧ availableTools ≠ []))
  ∧ ((getFunctionCallingOptions openrouterModelSupportsTools availableTools model opts).isSome = true ↔
       (opts.tools ≠ some false ∧ opts.top_k ≠ none ∧ availableTools ≠ [])) := by
  refine ⟨?_, ?_, ?_⟩
  · show ((if _ then some _ else none).isSome = true ↔ _)
    rw [isSome_ite_some_none]
    simp only [List.length_map, Bool.and_eq_true, Bool.or_eq_true, beq_iff_eq,
      Bool.not_eq_true', beq_eq_false_iff_ne, decide_eq_true_eq, gt_iff_lt,
      List.length_pos, ne_eq]
    tauto
  · simp only [getFunctionCallingOptions]
    by_cases hd : ((opts.tools == some false || opts.top_k == none)
        || !(modelSupportsTools model)) = true
    · rw [if_pos hd]
      simp only [Bool.or_eq_true, beq_iff_eq, Bool.not_eq_true'] at hd
      simp only [Option.isSome_none, Bool.false_eq_true, false_iff, ne_eq]
      rintro ⟨h1, h2, h3, _⟩
      rcases hd with (hd | hd) | hd
      · exact h1 hd
      · exact h2 hd
      · rw [h3] at hd; exact Bool.true_eq_false.mp hd
    · rw [if_neg hd]
      rw [isSome_ite_some_none]
      simp only [Bool.or_eq_true, beq_iff_eq, Bool.not_eq_true', not_or] at hd
      obtain ⟨⟨h1, h2⟩, h3⟩ := hd
      simp only [bne_iff_ne, ne_eq, List.length_eq_zero]
      constructor
      · intro hne
        refine ⟨h1, h2, ?_, hne⟩
        cases hb : modelSupportsTools model
        · exact absurd hb h3
        · rfl
      · intro hc
        exact hc.2.2.2
  · simp only [getFunctionCallingOptions, openrouterModelSupportsTools, Bool.not_true,
      Bool.or_false]
    by_cases hd : ((opts.tools == some false || opts.top_k == none) : Bool) = true
    · rw [if_pos hd]
      simp only [Bool.or_eq_true, beq_iff_eq] at hd
      simp only [Option.isSome_none, Bool.false_eq_true, false_iff, ne_eq]
      rintro ⟨h1, h2, _⟩
      rcases hd with hd | hd
      · exact h1 hd
      · exact h2 hd
    · rw [if_neg hd]
      rw [isSome_ite_some_none]
      simp only [Bool.or_eq_true, beq_iff_eq, not_or] at hd
      obtain ⟨h1, h2⟩ := hd
      simp only [bne_iff_ne, ne_eq, List.length_eq_zero]
      constructor
      · intro hne
        exact ⟨h1, h2, hne⟩
      · intro hc
        exact hc.2.2

/-! ## C9 -/

/-- C9: an option the selected model does not support (temperature, top_p,
top_k, maxTokens, reasoningEffort) is silently omitted from the
outgoing OpenAI request — the corresponding request field is absent —
and the request is still assembled and issued with the same model and
messages. -/
theorem C9_unsupported_options_omitted {msg : Type} (model : String) (messages : List msg)
    (availableTools : List ToolSpec) (opts : LlmCompletionOpts) :
    (modelSupportsTemperature model = false → (getCompletionOpts model opts).temperature = none)
  ∧ (modelSupportsTopP model = false → (getCompletionOpts model opts).top_p = none)
  ∧ (modelSupportsTopK model = false →
       (getCompletionOpts model opts).top_logprobs = none
       ∧ (getCompletionOpts model opts).logprobs = false)
  ∧ (modelSupportsReasoningEffort model = false →
       (getCompletionOpts model opts).reasoning_effort = none)
  ∧ (modelSupportsMaxTokens model = false →
       (getCompletionOpts model opts).max_completion_tokens = none)
  ∧ (openaiChatRequest modelSupportsTools availableTools model messages opts).model = model
  ∧ (openaiChatRequest modelSupportsTools availableTools model messages opts).messages
      = messages := by
  refine ⟨?_, ?_, ?_, ?_, ?_, rfl, rfl⟩ <;> intro h <;> simp [getCompletionOpts, h]

/-- C9 witness: for the reasoning model o1 every requested sampling option
is dropped while the request is still built, and for gpt-4 the
requested reasoningEffort is dropped. -/
theorem C9_witness :
    modelSupportsTemperature "o1" = false
  ∧ (getCompletionOpts "o1" optsAllSet).temperature = none
  ∧ modelSupportsTopP "o1" = false
  ∧ (getCompletionOpts "o1" optsAllSet).top_p = none
  ∧ modelSupportsTopK "o1" = false
  ∧ (getCompletionOpts "o1" optsAllSet).top_logprobs = none
  ∧ modelSupportsReasoningEffort "gpt-4" = false
  ∧ (getCompletionOpts "gpt-4" optsAllSet).reasoning_effort = none
  ∧ (openaiChatRequest modelSupportsTools [toolW] "o1" ([] : List Unit) optsAllSet).model
      = "o1" := by
  refine ⟨by decide,
    (C9_unsupported_options_omitted "o1" ([] : List Unit) [toolW] optsAllSet).1 (by decide),
    by decide,
    (C9_unsupported_options_omitted "o1" ([] : List Unit) [toolW] optsAllSet).2.1 (by decide),
    by decide,
    ((C9_unsupported_options_omitted "o1" ([] : List Unit) [toolW] optsAllSet).2.2.1
      (by decide)).1,
    by decide,
    (C9_unsupported_options_omitted "gpt-4" ([] : List Unit) [toolW] optsAllSet).2.2.2.1
      (by decide),
    (C9_unsupported_options_omitted "o1" ([] : List Unit) [toolW] optsAllSet).2.2.2.2.2.1⟩

/-! ## C10 -/

/-- C10 counterexample: with top_k set to zero the value is omitted from
the sampling parameters of the outgoing OpenAI request, yet the request
is not the one produced without top_k — the zero top_k still enables
tool-declaration injection — refuting the claim that a zero option acts
exactly as if it had not been provided. -/
theorem C10_counterexample :
    (getCompletionOpts "gpt-4" { top_k := some 0 }).top_logprobs = none
  ∧ (getCompletionOpts "gpt-4" { top_k := some 0 }).logprobs = false
  ∧ openaiChatRequest modelSupportsTools [toolW] "gpt-4" ([] : List Unit) { top_k := some 0 }
      ≠ openaiChatRequest modelSupportsTools [toolW] "gpt-4" ([] : List Unit) { top_k := none }
  ∧ (openaiChatRequest modelSupportsTools [toolW] "gpt-4" ([] : List Unit)
      { top_k := some 0 }).toolDecls = some [toolW]
  ∧ (openaiChatRequest modelSupportsTools [toolW] "gpt-4" ([] : List Unit)
      { top_k := none }).toolDecls = none := by
  refine ⟨by decide, by decide, ?_, by decide, by decide⟩
  intro h
  have := congrArg (fun r => OAIChatRequest.toolDecls r) h
  simp only at this
  rw [show (openaiChatRequest modelSupportsTools [toolW] "gpt-4" ([] : List Unit)
      { top_k := some 0 }).toolDecls = some [toolW] by decide,
    show (openaiChatRequest modelSupportsTools [toolW] "gpt-4" ([] : List Unit)
      { top_k := none }).toolDecls = none by decide] at this
  exact Option.noConfusion this

/-- C10 (amended): a zero temperature, top_p, top_k or maxTokens is
omitted from the sampling parameters of both adapters exactly as if it
had not been provided; but a zero top_k, although omitted from the
sampling parameters, still counts as top_k being present for the
tool-declaration injection of both adapters, where it acts as any
nonzero value would. -/
theorem C10_amended (opts : LlmCompletionOpts) (model instructions : String)
    (supportsT : String → Bool) (availableTools : List ToolSpec) :
    getGenerationConfig { opts with temperature := some 0 }
      = getGenerationConfig { opts with temperature := none }
  ∧ getGenerationConfig { opts with maxTokens := some 0 }
      = getGenerationConfig { opts with maxTokens := none }
  ∧ getGenerationConfig { opts with top_p := some 0 }
      = getGenerationConfig { opts with top_p := none }
  ∧ getGenerationConfig { opts with top_k := some 0 }
      = getGenerationConfig { opts with top_k := none }
  ∧ getCompletionOpts model { opts with temperature := some 0 }
      = getCompletionOpts model { opts with temperature := none }
  ∧ getCompletionOpts model { opts with maxTokens := some 0 }
      = getCompletionOpts model { opts with maxTokens := none }
  ∧ getCompletionOpts model { opts with top_p := some 0 }
      = getCompletionOpts model { opts with top_p := none }
  ∧ getCompletionOpts model { opts with top_k := some 0 }
      = getCompletionOpts model { opts with top_k := none }
  ∧ getFunctionCallingOptions supportsT availableTools model { opts with top_k := some 0 }
      = getFunctionCallingOptions supportsT availableTools model { opts with top_k := some 1 }
  ∧ (getModel availableTools model instructions { opts with top_k := some 0 }).tools
      = (getModel availableTools model instructions { opts with top_k := some 1 }).tools := by
  refine ⟨rfl, rfl, rfl, rfl, ?_, rfl, ?_, ?_, rfl, rfl⟩ <;>
    simp [getCompletionOpts, truthyNum]

/-! ## C5 -/

/-- C5: for a model lacking system-role support, the built payload contains
no system-role unit: the OpenAI adapter filters system messages out of
whatever the base builder produced, and the Google adapter's history
contains no system-role Content for any thread (leading system messages
become the systemInstruction or are remapped to the user role). -/
theorem C5_no_system_role {m : Type} (model gmodel : String)
    (basePayload : List LLmCompletionPayload)
    (buildPayload : List m → List LLmCompletionPayload) (thread : List m)
    (h1 : modelAcceptsSystemRole model = false)
    (h2 : supportsInstructions gmodel = false) :
    (openaiBuildPayload model basePayload).all (fun u => u.role != LlmRole.system) = true
  ∧ (threadToHistory buildPayload thread gmodel).all (fun c => c.role != "system") = true := by
  constructor
  · simp only [openaiBuildPayload, h1, Bool.not_false, if_true, List.all_eq_true]
    intro u hu
    exact (List.mem_filter.mp hu).2
  · simp only [threadToHistory, List.all_eq_true, List.map_map, List.mem_map]
    rintro c ⟨p, _, rfl⟩
    rcases p with ⟨role, content, images⟩
    cases role <;> simp [messageToContent, roleString]

/-- C5 witness: concrete payloads containing a system message, built for
o1 (OpenAI adapter) and models/gemini-pro (Google adapter), contain no
system-role unit. -/
theorem C5_witness :
    modelAcceptsSystemRole "o1" = false
  ∧ supportsInstructions "models/gemini-pro" = false
  ∧ (openaiBuildPayload "o1"
      [{ role := LlmRole.system, content := "be terse" },
       { role := LlmRole.user, content := "2+2?" }]).all
      (fun u => u.role != LlmRole.system) = true
  ∧ (threadToHistory (fun l => l)
      [{ role := LlmRole.system, content := "be terse" },
       { role := LlmRole.user, content := "2+2?" }] "models/gemini-pro").all
      (fun c => c.role != "system") = true := by
  refine ⟨by decide, by decide, ?_, ?_⟩
  · exact (C5_no_system_role "o1" "models/gemini-pro"
      [{ role := LlmRole.system, content := "be terse" },
       { role := LlmRole.user, content := "2+2?" }]
      (fun l => l)
      [{ role := LlmRole.system, content := "be terse" },
       { role := LlmRole.user, content := "2+2?" }]
      (by decide) (by decide)).1
  · exact (C5_no_system_role "o1" "models/gemini-pro"
      [{ role := LlmRole.system, content := "be terse" },
       { role := LlmRole.user, content := "2+2?" }]
      (fun l => l)
      [{ role := LlmRole.system, content := "be terse" },
       { role := LlmRole.user, content := "2+2?" }]
      (by decide) (by decide)).2

/-! ## Well-formed turns and usage sums (used to state C2 and C6) -/

/-- A well-formed Google turn: the transport supplies one response per hop,
every hop before the last requests tools, and the last does not. -/
def wellFormedHops : List GoogleHop → Bool
  | [] => false
  | [hop] => hop.functionCalls.isEmpty
  | hop :: hop2 :: rest => !hop.functionCalls.isEmpty && wellFormedHops (hop2 :: rest)

/-- Field-wise sum of the usages reported by the hops of a Google turn
(hops reporting none contribute nothing). -/
def sumReportedGoogle : List GoogleHop → UsageStats
  | [] => { prompt_tokens := 0, completion_tokens := 0 }
  | hop :: rest =>
    let s := sumReportedGoogle rest
    match hop.usageMetadata with
    | some u =>
      { prompt_tokens := s.prompt_tokens + u.promptTokenCount,
        completion_tokens := s.completion_tokens + u.candidatesTokenCount }
    | none => s

/-- Did the last (terminal) hop of a Google turn report usage? -/
def lastReportsGoogle (hops : List GoogleHop) : Bool :=
  match hops.getLast? with
  | some hop => hop.usageMetadata.isSome
  | none => false

/-- A well-formed OpenAI turn: every hop before the last finishes with
tool_calls, and the last does not. -/
def wellFormedOAIHops : List OpenAIHop → Bool
  | [] => false
  | [hop] => hop.finish_reason != some "tool_calls"
  | hop :: hop2 :: rest =>
    hop.finish_reason == some "tool_calls" && wellFormedOAIHops (hop2 :: rest)

/-- Do all serialized tool-call arguments of the turn parse? -/
def oaiHopsParseOk (parse : String → Option String) (hops : List OpenAIHop) : Bool :=
  hops.all (fun hop => hop.tool_calls.all (fun tc => (parse tc.arguments).isSome))

/-- Field-wise sum of the usages reported by the hops of an OpenAI turn —
the total the claim expects, which the OpenAI loop does not compute. -/
def sumReportedOAI : List OpenAIHop → UsageStats
  | [] => { prompt_tokens := 0, completion_tokens := 0 }
  | hop :: rest =>
    let s := sumReportedOAI rest
    match hop.usage with
    | some u =>
      { prompt_tokens := s.prompt_tokens + u.prompt_tokens,
        completion_tokens := s.completion_tokens + u.completion_tokens }
    | none => s

/-- Sum of the prompt_tokens reported by the hops of an OpenAI turn. -/
def sumPromptOAI : List OpenAIHop → Nat
  | [] => 0
  | hop :: rest =>
    match hop.usage with
    | some u => sumPromptOAI rest + u.prompt_tokens
    | none => sumPromptOAI rest

/-- The completion_tokens reported by the terminal hop of an OpenAI turn
(zero when it reported none). -/
def lastCompletionOAI (hops : List OpenAIHop) : Nat :=
  match hops.getLast? with
  | some hop =>
    match hop.usage with
    | some u => u.completion_tokens
    | none => 0
  | none => 0

/-- Did the last (terminal) hop of an OpenAI turn report usage? -/
def lastReportsOAI (hops : List OpenAIHop) : Bool :=
  match hops.getLast? with
  | some hop => hop.usage.isSome
  | none => false

/-- The tool-call info a Google hop contributes to the aggregate result. -/
def googleHopInfos (registry : String → String → String) (hop : GoogleHop) :
    List LlmToolCallInfo :=
  hop.functionCalls.map (fun tc =>
    { name := tc.name, params := tc.args, result := registry tc.name tc.args })

/-- The tool-call info an OpenAI hop contributes to the aggregate result. -/
def oaiHopInfos (parse : String → Option String) (registry : String → String → String)
    (hop : OpenAIHop) : List LlmToolCallInfo :=
  if hop.finish_reason == some "tool_calls" then
    hop.tool_calls.filterMap (fun tc => (parse tc.arguments).map (fun args =>
      ({ name := tc.name, params := args, result := registry tc.name args } : LlmToolCallInfo)))
  else []

/-- One-step unfolding of googleChat on a cons of hops. -/
theorem googleChat_cons_eq (registry : String → String → String) (opts : LlmCompletionOpts)
    (hop : GoogleHop) (rest : List GoogleHop) (thread : List GContent) :
    googleChat registry opts (hop :: rest) thread =
      if hop.functionCalls.isEmpty then
        some { content := hop.text,
               toolCalls := [],
               usage :=
                 if opts.usage then
                   hop.usageMetadata.map (fun u =>
                     { prompt_tokens := u.promptTokenCount,
                       completion_tokens := u.candidatesTokenCount })
                 else none }
      else
        match googleChat registry opts rest (thread ++
          [{ role := "assistant", parts := hop.parts },
           { role := "tool", parts := hop.functionCalls.map (fun tc =>
              GPart.functionResponse tc.name (registry tc.name tc.args)) }]) with
        | none => none
        | some completion =>
          some { completion with
            toolCalls := googleHopInfos registry hop ++ completion.toolCalls,
            usage :=
              match opts.usage, hop.usageMetadata, completion.usage with
              | true, some u, some c =>
                some { prompt_tokens := c.prompt_tokens + u.promptTokenCount,
                       completion_tokens := c.completion_tokens + u.candidatesTokenCount }
              | _, _, _ => completion.usage } := by
  rfl

/-- On a well-formed turn, googleChat succeeds, returns the concatenated
tool-call info of all hops oldest first, and (when tracking is on)
returns the field-wise usage sum exactly when the terminal hop
reported usage. -/
theorem googleChat_spec (registry : String → String → String) (opts : LlmCompletionOpts) :
    ∀ hops thread, wellFormedHops hops = true →
    ∃ resp, googleChat registry opts hops thread = some resp
      ∧ resp.toolCalls = concatMap (googleHopInfos registry) hops
      ∧ (opts.usage = true →
          resp.usage =
            (if lastReportsGoogle hops then some (sumReportedGoogle hops) else none)) := by
  intro hops
  induction hops with
  | nil => intro thread h; simp [wellFormedHops] at h
  | cons hop rest ih =>
    intro thread hwf
    rw [googleChat_cons_eq]
    cases rest with
    | nil =>
      have hempty : hop.functionCalls.isEmpty = true := by
        simpa [wellFormedHops] using hwf
      rw [if_pos hempty]
      refine ⟨_, rfl, ?_, ?_⟩
      · simp [concatMap, googleHopInfos, List.isEmpty_iff.mp hempty]
      · intro hu
        simp only [hu, if_true]
        cases hm : hop.usageMetadata with
        | none => simp [lastReportsGoogle, hm]
        | some u => simp [lastReportsGoogle, sumReportedGoogle, hm]
    | cons hop2 rest2 =>
      have hwf' : (!hop.functionCalls.isEmpty && wellFormedHops (hop2 :: rest2)) = true := by
        simpa [wellFormedHops] using hwf
      have hne : hop.functionCalls.isEmpty = false := by
        rcases Bool.and_eq_true .. |>.mp hwf' with ⟨h1, _⟩
        simpa using h1
      have htl : wellFormedHops (hop2 :: rest2) = true :=
        (Bool.and_eq_true .. |>.mp hwf').2
      obtain ⟨resp', hresp', hcalls', husage'⟩ := ih (thread ++
        [{ role := "assistant", parts := hop.parts },
         { role := "tool", parts := hop.functionCalls.map (fun tc =>
            GPart.functionResponse tc.name (registry tc.name tc.args)) }]) htl
      rw [hne, hresp']
      simp only [Bool.false_eq_true, if_false]
      refine ⟨_, rfl, ?_, ?_⟩
      · simp only [concatMap, hcalls']
      · intro hu
        have hlast : lastReportsGoogle (hop :: hop2 :: rest2)
            = lastReportsGoogle (hop2 :: rest2) := by
          simp [lastReportsGoogle, List.getLast?_cons_cons]
        rw [hlast, hu]
        cases hm : hop.usageMetadata with
        | none =>
          simp only [sumReportedGoogle, hm]
          exact husage' hu
        | some u =>
          rw [husage' hu]
          cases hrep : lastReportsGoogle (hop2 :: rest2) with
          | false => simp
          | true => simp [sumReportedGoogle, hm]

/-- When every serialized argument parses, the OpenAI non-streaming tool
loop succeeds and produces the per-call info and tool-response messages
in reported order. -/
theorem openaiProcessCalls_spec (parse : String → Option String)
    (registry : String → String → String) :
    ∀ calls : List OpenAIToolCall,
    calls.all (fun tc => (parse tc.arguments).isSome) = true →
    openaiProcessCalls parse registry calls = Except.ok
      (calls.filterMap (fun tc => (parse tc.arguments).map (fun args =>
        ({ name := tc.name, params := args, result := registry tc.name args }
          : LlmToolCallInfo))),
       calls.filterMap (fun tc => (parse tc.arguments).map (fun args =>
        OAIChatMsg.toolResult tc.id tc.name (registry tc.name args)))) := by
  intro calls
  induction calls with
  | nil => intro _; rfl
  | cons tc rest ih =>
    intro h
    rw [List.all_cons, Bool.and_eq_true] at h
    obtain ⟨h1, h2⟩ := h
    cases hp : parse tc.arguments with
    | none => rw [hp] at h1; simp at h1
    | some args =>
      simp only [openaiProcessCalls, hp, ih h2, List.filterMap_cons, Option.map_some']

/-- One-step unfolding of openaiChat on a cons of hops. -/
theorem openaiChat_cons_eq (parse : String → Option String)
    (registry : String → String → String) (opts : LlmCompletionOpts)
    (hop : OpenAIHop) (rest : List OpenAIHop) (thread : List OAIChatMsg) :
    openaiChat parse registry opts (hop :: rest) thread =
      (if hop.finish_reason == some "tool_calls" then
        match openaiProcessCalls parse registry hop.tool_calls with
        | Except.error e => Except.error e
        | Except.ok (toolCallInfo, toolMsgs) =>
          match openaiChat parse registry opts rest
            ((thread ++ [OAIChatMsg.assistantToolCalls hop.tool_calls]) ++ toolMsgs) with
          | Except.error e => Except.error e
          | Except.ok completion =>
            Except.ok { completion with
              toolCalls := toolCallInfo ++ completion.toolCalls,
              usage :=
                match opts.usage, hop.usage, completion.usage with
                | true, some u, some c =>
                  some { prompt_tokens := c.prompt_tokens + u.prompt_tokens,
                         completion_tokens := c.completion_tokens }
                | _, _, _ => completion.usage }
      else
        Except.ok { content := hop.content.getD "",
                    toolCalls := [],
                    usage := if opts.usage then hop.usage else none }) := by
  rfl

/-- On a well-formed turn whose arguments all parse, openaiChat succeeds,
returns the concatenated tool-call info of all hops oldest first, and
(when tracking is on) returns usage exactly when the terminal hop
reported it: the prompt_tokens of the reporting hops are summed, but
the completion_tokens is the terminal hop's alone — each hop's
completion_tokens is discarded during the unwinding. -/
theorem openaiChat_spec (parse : String → Option String)
    (registry : String → String → String) (opts : LlmCompletionOpts) :
    ∀ hops thread, wellFormedOAIHops hops = true →
    oaiHopsParseOk parse hops = true →
    ∃ resp, openaiChat parse registry opts hops thread = Except.ok resp
      ∧ resp.toolCalls = concatMap (oaiHopInfos parse registry) hops
      ∧ (opts.usage = true →
          resp.usage =
            (if lastReportsOAI hops then
              some { prompt_tokens := sumPromptOAI hops,
                     completion_tokens := lastCompletionOAI hops }
             else none)) := by
  intro hops
  induction hops with
  | nil => intro thread h _; simp [wellFormedOAIHops] at h
  | cons hop rest ih =>
    intro thread hwf hpk
    have hpk1 : hop.tool_calls.all (fun tc => (parse tc.arguments).isSome) = true := by
      rw [oaiHopsParseOk, List.all_cons, Bool.and_eq_true] at hpk
      exact hpk.1
    have hpk2 : oaiHopsParseOk parse rest = true := by
      rw [oaiHopsParseOk, List.all_cons, Bool.and_eq_true] at hpk
      exact hpk.2
    rw [openaiChat_cons_eq]
    cases rest with
    | nil =>
      have hterm : (hop.finish_reason == some "tool_calls") = false := by
        have : (hop.finish_reason != some "tool_calls") = true := by
          simpa [wellFormedOAIHops] using hwf
        simpa [bne] using this
      rw [hterm]
      simp only [Bool.false_eq_true, if_false]
      refine ⟨_, rfl, ?_, ?_⟩
      · simp [concatMap, oaiHopInfos, hterm]
      · intro hu
        simp only [hu, if_true]
        cases hm : hop.usage with
        | none => simp [lastReportsOAI, hm]
        | some u => simp [lastReportsOAI, sumPromptOAI, lastCompletionOAI, hm]
    | cons hop2 rest2 =>
      have hwf' : (hop.finish_reason == some "tool_calls"
          && wellFormedOAIHops (hop2 :: rest2)) = true := by
        simpa [wellFormedOAIHops] using hwf
      have hfin : (hop.finish_reason == some "tool_calls") = true :=
        (Bool.and_eq_true .. |>.mp hwf').1
      have htl : wellFormedOAIHops (hop2 :: rest2) = true :=
        (Bool.and_eq_true .. |>.mp hwf').2
      rw [hfin, if_pos rfl, openaiProcessCalls_spec parse registry hop.tool_calls hpk1]
      dsimp only
      obtain ⟨resp', hresp', hcalls', husage'⟩ := ih ((thread ++
        [OAIChatMsg.assistantToolCalls hop.tool_calls]) ++
        hop.tool_calls.filterMap (fun tc => (parse tc.arguments).map (fun args =>
          OAIChatMsg.toolResult tc.id tc.name (registry tc.name args)))) htl hpk2
      rw [hresp']
      refine ⟨_, rfl, ?_, ?_⟩
      · simp only [concatMap, hcalls', oaiHopInfos, hfin, if_pos rfl, ite_true]
      · intro hu
        have hlast : lastReportsOAI (hop :: hop2 :: rest2)
            = lastReportsOAI (hop2 :: rest2) := by
          simp [lastReportsOAI, List.getLast?_cons_cons]
        have hlastc : lastCompletionOAI (hop :: hop2 :: rest2)
            = lastCompletionOAI (hop2 :: rest2) := by
          simp [lastCompletionOAI, List.getLast?_cons_cons]
        rw [hlast, hlastc, hu]
        cases hm : hop.usage with
        | none =>
          simp only [sumPromptOAI, hm]
          exact husage' hu
        | some u =>
          rw [husage' hu]
          cases hrep : lastReportsOAI (hop2 :: rest2) with
          | false => simp
          | true => simp [sumPromptOAI, hm]

/-! ## C2 -/

/-- A registry returning a fixed result, used as a concrete input. -/
def regW : String → String → String := fun _ _ => "sunny"

/-- A parser that accepts every string, used as a concrete input. -/
def parseW : String → Option String := fun s => some s

/-- A Google hop requesting one tool call and reporting usage 10/5. -/
def ghopCall : GoogleHop :=
  { functionCalls := [{ name := "get_weather", args := "Lyon" }],
    text := "", parts := [],
    usageMetadata := some { promptTokenCount := 10, candidatesTokenCount := 5 } }

/-- A terminal Google hop reporting no usage. -/
def ghopFinal : GoogleHop :=
  { functionCalls := [], text := "it is sunny", parts := [], usageMetadata := none }

/-- An OpenAI hop requesting one tool call and reporting usage 7/3. -/
def ohopCall : OpenAIHop :=
  { finish_reason := some "tool_calls", content := none,
    tool_calls := [{ id := "call_1", name := "get_weather", arguments := "Lyon" }],
    usage := some { prompt_tokens := 7, completion_tokens := 3 } }

/-- A terminal OpenAI hop reporting usage 4/2. -/
def ohopFinal : OpenAIHop :=
  { finish_reason := some "stop", content := some "done", tool_calls := [],
    usage := some { prompt_tokens := 4, completion_tokens := 2 } }

/-- C2 counterexample: two refutations of field-wise summation. A Google
turn with usage tracking enabled whose first hop reports usage 10/5 and
whose terminal hop reports none returns a result with no usage at all,
not the sum 10/5 the claim requires (the terminal hop that reports no
usage does not leave the running total unchanged — it discards it). And
an OpenAI turn whose hops report 7/3 and 4/2 returns usage 11/2, not
the field-wise sum 11/5: the loop adds only prompt_tokens per hop, so
the total's completion_tokens is the terminal hop's alone. -/
theorem C2_counterexample :
    ({ usage := true } : LlmCompletionOpts).usage = true
  ∧ ghopCall.usageMetadata = some { promptTokenCount := 10, candidatesTokenCount := 5 }
  ∧ ghopFinal.usageMetadata = none
  ∧ sumReportedGoogle [ghopCall, ghopFinal] = { prompt_tokens := 10, completion_tokens := 5 }
  ∧ (googleChat regW { usage := true } [ghopCall, ghopFinal] []).map (fun r => r.usage)
      = some none
  ∧ ohopCall.usage = some { prompt_tokens := 7, completion_tokens := 3 }
  ∧ ohopFinal.usage = some { prompt_tokens := 4, completion_tokens := 2 }
  ∧ sumReportedOAI [ohopCall, ohopFinal] = { prompt_tokens := 11, completion_tokens := 5 }
  ∧ (openaiChat parseW regW { usage := true } [ohopCall, ohopFinal] []).toOption.bind
      (fun r => r.usage) = some { prompt_tokens := 11, completion_tokens := 2 }
  ∧ some ({ prompt_tokens := 11, completion_tokens := 2 } : UsageStats)
      ≠ some ({ prompt_tokens := 11, completion_tokens := 5 } : UsageStats) := by
  exact ⟨rfl, rfl, rfl, rfl, rfl, rfl, rfl, rfl, rfl, by decide⟩

/-- C2 (amended): with usage tracking enabled, on a well-formed turn the
returned usage is present exactly when the terminal hop reported
usage, and a non-terminal hop that reports none contributes nothing;
when the terminal hop reports no usage, the result carries no usage at
all. The Google loop then returns the field-wise sum of the reported
usages; the OpenAI loop sums only the prompt_tokens of the reported
usages and returns the terminal hop's completion_tokens alone, each
hop's own completion_tokens being discarded. -/
theorem C2_amended (registry : String → String → String) (parse : String → Option String)
    (opts : LlmCompletionOpts) (ghops : List GoogleHop) (gthread : List GContent)
    (ohops : List OpenAIHop) (othread : List OAIChatMsg)
    (hu : opts.usage = true)
    (hg : wellFormedHops ghops = true)
    (ho : wellFormedOAIHops ohops = true)
    (hp : oaiHopsParseOk parse ohops = true) :
    (∃ resp, googleChat registry opts ghops gthread = some resp
      ∧ resp.usage = (if lastReportsGoogle ghops then some (sumReportedGoogle ghops) else none))
  ∧ (∃ resp, openaiChat parse registry opts ohops othread = Except.ok resp
      ∧ resp.usage = (if lastReportsOAI ohops then
          some { prompt_tokens := sumPromptOAI ohops,
                 completion_tokens := lastCompletionOAI ohops }
        else none)) := by
  constructor
  · obtain ⟨resp, h1, _, h3⟩ := googleChat_spec registry opts ghops gthread hg
    exact ⟨resp, h1, h3 hu⟩
  · obtain ⟨resp, h1, _, h3⟩ := openaiChat_spec parse registry opts ohops othread ho hp
    exact ⟨resp, h1, h3 hu⟩

/-- C2 witness: the amended statement instantiated on concrete two-hop
turns for both adapters (the OpenAI instance returns prompt 7+4=11 and
the terminal hop's completion 2). -/
theorem C2_witness :
    optsAllSet.usage = true
  ∧ wellFormedHops [ghopCall, ghopFinal] = true
  ∧ wellFormedOAIHops [ohopCall, ohopFinal] = true
  ∧ oaiHopsParseOk parseW [ohopCall, ohopFinal] = true
  ∧ ((∃ resp, googleChat regW optsAllSet [ghopCall, ghopFinal] [] = some resp
      ∧ resp.usage = (if lastReportsGoogle [ghopCall, ghopFinal] then
          some (sumReportedGoogle [ghopCall, ghopFinal]) else none))
    ∧ (∃ resp, openaiChat parseW regW optsAllSet [ohopCall, ohopFinal] [] = Except.ok resp
      ∧ resp.usage = (if lastReportsOAI [ohopCall, ohopFinal] then
          some { prompt_tokens := sumPromptOAI [ohopCall, ohopFinal],
                 completion_tokens := lastCompletionOAI [ohopCall, ohopFinal] }
        else none))) :=
  ⟨rfl, by decide, by decide, by decide,
    C2_amended regW parseW optsAllSet [ghopCall, ghopFinal] [] [ohopCall, ohopFinal] []
      rfl (by decide) (by decide) (by decide)⟩

/-! ## C6 -/

/-- C6: on a well-formed turn the aggregate result carries the full list
of tool-call records produced across all hops, ordered oldest hop
first with each hop's calls in the backend-reported order, for both
chat loops. -/
theorem C6_tool_calls_aggregated (registry : String → String → String)
    (parse : String → Option String) (opts : LlmCompletionOpts)
    (ghops : List GoogleHop) (gthread : List GContent)
    (ohops : List OpenAIHop) (othread : List OAIChatMsg)
    (hg : wellFormedHops ghops = true)
    (ho : wellFormedOAIHops ohops = true)
    (hp : oaiHopsParseOk parse ohops = true) :
    (∃ resp, googleChat registry opts ghops gthread = some resp
      ∧ resp.toolCalls = concatMap (googleHopInfos registry) ghops)
  ∧ (∃ resp, openaiChat parse registry opts ohops othread = Except.ok resp
      ∧ resp.toolCalls = concatMap (oaiHopInfos parse registry) ohops) := by
  constructor
  · obtain ⟨resp, h1, h2, _⟩ := googleChat_spec registry opts ghops gthread hg
    exact ⟨resp, h1, h2⟩
  · obtain ⟨resp, h1, h2, _⟩ := openaiChat_spec parse registry opts ohops othread ho hp
    exact ⟨resp, h1, h2⟩

/-- C6 witness: the aggregation statement instantiated on concrete two-hop
turns for both adapters. -/
theorem C6_witness :
    wellFormedHops [ghopCall, ghopFinal] = true
  ∧ wellFormedOAIHops [ohopCall, ohopFinal] = true
  ∧ oaiHopsParseOk parseW [ohopCall, ohopFinal] = true
  ∧ ((∃ resp, googleChat regW optsAllSet [ghopCall, ghopFinal] [] = some resp
      ∧ resp.toolCalls = concatMap (googleHopInfos regW) [ghopCall, ghopFinal])
    ∧ (∃ resp, openaiChat parseW regW optsAllSet [ohopCall, ohopFinal] [] = Except.ok resp
      ∧ resp.toolCalls = concatMap (oaiHopInfos parseW regW) [ohopCall, ohopFinal])) :=
  ⟨by decide, by decide, by decide,
    C6_tool_calls_aggregated regW parseW optsAllSet [ghopCall, ghopFinal] []
      [ohopCall, ohopFinal] [] (by decide) (by decide) (by decide)⟩

/-! ## C4 -/

/-- updateFirstById leaves the ids of the records untouched when the
update function preserves the id. -/
theorem updateFirstById_ids (i : String) (f : OpenAILlmToolCall → OpenAILlmToolCall)
    (hf : ∀ tc, (f tc).id = tc.id) :
    ∀ l : List OpenAILlmToolCall,
    (updateFirstById i f l).map (fun tc => tc.id) = l.map (fun tc => tc.id) := by
  intro l
  induction l with
  | nil => rfl
  | cons a t ih =>
    by_cases h : (a.id == i) = true
    · simp [updateFirstById, h, hf]
    · simp only [updateFirstById, Bool.not_eq_true] at h
      simp [updateFirstById, h, ih]

/-- Replacing the last record by one with the same id leaves the ids of
the list untouched. -/
theorem dropLast_concat_ids (x y : OpenAILlmToolCall) (hid : y.id = x.id) :
    ∀ l : List OpenAILlmToolCall, l.getLast? = some x →
    (l.dropLast ++ [y]).map (fun tc => tc.id) = l.map (fun tc => tc.id) := by
  intro l
  induction l with
  | nil => intro h; simp at h
  | cons a t ih =>
    intro h
    cases t with
    | nil =>
      simp only [List.getLast?_singleton, Option.some.injEq] at h
      subst h
      simp [hid]
    | cons b t2 =>
      rw [List.getLast?_cons_cons] at h
      have := ih h
      simp only [List.dropLast_cons₂, List.cons_append, List.map_cons]
      rw [this]
      rfl

/-- Replacing the last record by one with the same id preserves
distinctness of the ids. -/
theorem nodup_dropLast_concat (l : List OpenAILlmToolCall) (x y : OpenAILlmToolCall)
    (hl : l.getLast? = some x) (hid : y.id = x.id)
    (hnd : (l.map (fun tc => tc.id)).Nodup) :
    ((l.dropLast ++ [y]).map (fun tc => tc.id)).Nodup := by
  rw [dropLast_concat_ids x y hid l hl]
  exact hnd

/-- The OpenAI accumulation step preserves distinctness of the record ids:
updates keep ids unchanged, and a new record is only opened for an id
no open record carries. -/
theorem openaiAccumulate_nodup (tcd : OAIToolCallDelta) (deltas : List OAIToolCallDelta)
    (toolCalls : List OpenAILlmToolCall)
    (hnd : (toolCalls.map (fun tc => tc.id)).Nodup) :
    (((openaiAccumulateToolCall tcd deltas toolCalls).2.1).map (fun tc => tc.id)).Nodup := by
  unfold openaiAccumulateToolCall
  rcases hid : tcd.id with _ | i
  · dsimp only
    rcases hl : toolCalls.getLast? with _ | last
    · simpa using hnd
    · exact nodup_dropLast_concat toolCalls last _ hl rfl hnd
  · dsimp only
    by_cases hne : (i != "") = true
    · rw [if_pos hne]
      rcases hf : toolCalls.find? (fun tc => tc.id == i) with _ | found
      · rw [hf]
        dsimp only
        rw [List.map_append]
        simp only [List.map_cons, List.map_nil]
        rw [List.nodup_append]
        refine ⟨hnd, List.nodup_singleton i, ?_⟩
        intro x hx hx2
        simp only [List.mem_singleton] at hx2
        subst hx2
        obtain ⟨tc, htc, rfl⟩ := List.mem_map.mp hx
        have := List.find?_eq_none.mp hf tc htc
        simp at this
      · rw [hf]
        dsimp only
        rw [updateFirstById_ids i
          (fun tc => { tc with
            args := tc.args ++ (tcd.function.bind (fun f => f.arguments)).getD "" })
          (fun tc => rfl) toolCalls]
        exact hnd
    · rw [if_neg hne]
      rcases hl : toolCalls.getLast? with _ | last
      · simpa using hnd
      · exact nodup_dropLast_concat toolCalls last _ hl rfl hnd

/-- After the main stage the accumulator is either freshly reset (a new
stream was opened) or exactly what the accumulation stage left. -/
theorem openaiChunkMain_toolCalls (parse : String → Option String)
    (registry : String → String → String) (chunk : OpenAIChunk)
    (accEvs : List LlmChunkEv) (context1 : OpenAIStreamingContext) :
    (openaiChunkMain parse registry chunk accEvs context1).ctx.toolCalls = []
  ∨ (openaiChunkMain parse registry chunk accEvs context1).ctx.toolCalls
      = context1.toolCalls := by
  unfold openaiChunkMain
  split
  · rcases hloop : openaiStreamToolLoop parse registry context1.toolCalls with ⟨evs, msgs, invs, err⟩
    rcases err with _ | e
    · exact Or.inl rfl
    · exact Or.inr rfl
  · by_cases hdone : oaiDoneSet.contains (oaiChunkFinish chunk) = true
    · simp only [hdone, if_pos]
      exact Or.inr trivial
    · simp only [Bool.not_eq_true] at hdone
      simp only [hdone, Bool.false_eq_true, if_false]
      exact Or.inr trivial

/-- The accumulation stage preserves distinctness of the record ids. -/
theorem openaiAccStep_nodup (chunk : OpenAIChunk) (context : OpenAIStreamingContext)
    (hnd : (context.toolCalls.map (fun tc => tc.id)).Nodup) :
    (((openaiAccStep chunk context).2.1).map (fun tc => tc.id)).Nodup := by
  unfold openaiAccStep
  rcases hd : oaiChunkToolCallDelta chunk with _ | tcd
  · exact hnd
  · dsimp only
    by_cases hfn : tcd.function.isSome = true
    · rw [if_pos hfn]
      exact openaiAccumulate_nodup tcd _ context.toolCalls hnd
    · simp only [Bool.not_eq_true] at hfn
      rw [hfn]
      simpa using hnd

/-- Translating any native chunk preserves distinctness of the record ids
of the OpenAI accumulator. -/
theorem openaiTranslate_nodup (parse : String → Option String)
    (registry : String → String → String) (chunk : OpenAIChunk)
    (octx : OpenAIStreamingContext)
    (hnd : (octx.toolCalls.map (fun tc => tc.id)).Nodup) :
    (((openaiNativeChunkToLlmChunk parse registry chunk octx).ctx.toolCalls).map
      (fun tc => tc.id)).Nodup := by
  unfold openaiNativeChunkToLlmChunk
  have h1 := openaiAccStep_nodup chunk octx hnd
  rcases hacc : openaiAccStep chunk octx with ⟨accEvs, toolCalls1, accErr⟩
  rw [hacc] at h1
  dsimp only at h1 ⊢
  rcases accErr with _ | e
  · dsimp only
    rcases openaiChunkMain_toolCalls parse registry chunk accEvs
      { octx with toolCalls := toolCalls1 } with h | h
    · rw [h]; exact List.nodup_nil
    · rw [h]; exact h1
  · exact h1

/-- A Google chunk reporting the same function twice. -/
def chunkDup : GoogleChunk :=
  { functionCalls := [{ name := "get_weather", args := "Lyon" },
                      { name := "get_weather", args := "Paris" }] }

/-- C4 counterexample: the Google adapter uses the function name as the
ToolCallRecord id, so a chunk calling the same function twice fills
the in-flight accumulator with records whose ids collide — refuting
the pairwise-distinct-ids part of the claim. The failing-parse run
exhibits the accumulator state mid-attempt. -/
theorem C4_counterexample :
    (googleToolCallRecords (fun s => s) chunkDup).map (fun tc => tc.id)
      = ["get_weather", "get_weather"]
  ∧ ¬ ((googleToolCallRecords (fun s => s) chunkDup).map (fun tc => tc.id)).Nodup
  ∧ (googleNativeChunkToLlmChunk (fun s => s) (fun _ => none) regW chunkDup
      { content := [], opts := {}, toolCalls := [] }).ctx.toolCalls
      = googleToolCallRecords (fun s => s) chunkDup := by
  refine ⟨rfl, by decide, rfl⟩

/-- C4 (amended): the in-flight accumulator is empty immediately after
each new backend request is issued — doStream of either adapter resets
it before prompting — and in the OpenAI adapter the accumulated record
ids stay pairwise distinct across the translation of any chunk; the
Google adapter uses the function name as the record id, so distinctness
fails there when one chunk reports the same function twice. -/
theorem C4_amended (context : GoogleStreamingContext) (octx : OpenAIStreamingContext)
    (parse : String → Option String) (registry : String → String → String)
    (chunk : OpenAIChunk)
    (hnd : (octx.toolCalls.map (fun tc => tc.id)).Nodup) :
    (googleDoStream context).toolCalls = []
  ∧ (openaiDoStream octx).toolCalls = []
  ∧ (((openaiNativeChunkToLlmChunk parse registry chunk octx).ctx.toolCalls).map
      (fun tc => tc.id)).Nodup :=
  ⟨rfl, rfl, openaiTranslate_nodup parse registry chunk octx hnd⟩

/-- A streamed tool-call delta opening a call with a fresh id. -/
def tcdNew : OAIToolCallDelta :=
  { id := some "call_2",
    function := some { name := some "get_time", arguments := some "Paris" } }

/-- An OpenAI chunk opening a new tool call with a fresh id. -/
def chunkNewCall : OpenAIChunk :=
  { choices := [{ delta := { tool_calls := [tcdNew] } }] }

/-- An OpenAI streaming context holding one open tool-call record. -/
def octxOne : OpenAIStreamingContext :=
  { model := "gpt-4", thread := [], opts := {},
    toolCalls := [{ id := "call_1", message := [], function := "get_weather",
                    args := "Lyon" }],
    done := false }

/-- C4 witness: the amended statement instantiated on a concrete context
with one open record and a chunk opening a second, distinct record. -/
theorem C4_witness :
    ((octxOne.toolCalls.map (fun tc => tc.id)).Nodup)
  ∧ (googleDoStream { content := [], opts := {}, toolCalls := [] }).toolCalls = []
  ∧ (openaiDoStream octxOne).toolCalls = []
  ∧ (((openaiNativeChunkToLlmChunk parseW regW chunkNewCall octxOne).ctx.toolCalls).map
      (fun tc => tc.id)).Nodup :=
  ⟨by decide,
   (C4_amended { content := [], opts := {}, toolCalls := [] } octxOne parseW regW
     chunkNewCall (by decide)).1,
   (C4_amended { content := [], opts := {}, toolCalls := [] } octxOne parseW regW
     chunkNewCall (by decide)).2.1,
   (C4_amended { content := [], opts := {}, toolCalls := [] } octxOne parseW regW
     chunkNewCall (by decide)).2.2⟩

/-! ## C3 -/

/-- Translating a Google text chunk with no function calls and no finish
signal yields one not-done content event and leaves the context
untouched. -/
theorem googleTranslate_plain (stringify : String → String) (parse : String → Option String)
    (registry : String → String → String) (chunk : GoogleChunk)
    (context : GoogleStreamingContext)
    (hfc : chunk.functionCalls.isEmpty = true) (hfr : chunk.finishReason = none) :
    googleNativeChunkToLlmChunk stringify parse registry chunk context
      = { events := [LlmChunkEv.content chunk.text false], ctx := context,
          invocations := [], err := none } := by
  unfold googleNativeChunkToLlmChunk
  rw [hfc]
  simp only [Bool.not_true, Bool.false_eq_true, if_false, hfr]
  rfl

/-- Running the Google translator over chunks with no function calls and
no finish signal yields only not-done content events and preserves the
context. -/
theorem googleRunInit_spec (stringify : String → String) (parse : String → Option String)
    (registry : String → String → String) :
    ∀ (init : List GoogleChunk) (context : GoogleStreamingContext),
    init.all (fun c => c.functionCalls.isEmpty && c.finishReason.isNone) = true →
    googleRunChunks stringify parse registry init context
      = { events := init.map (fun c => LlmChunkEv.content c.text false), ctx := context,
          invocations := [], err := none } := by
  intro init
  induction init with
  | nil => intro context _; rfl
  | cons c rest ih =>
    intro context h
    rw [List.all_cons, Bool.and_eq_true] at h
    obtain ⟨h1, h2⟩ := h
    rw [Bool.and_eq_true] at h1
    have hfr : c.finishReason = none := Option.isNone_iff_eq_none.mp h1.2
    show (let out := googleNativeChunkToLlmChunk stringify parse registry c context
      match out.err with
      | some e => { out with err := some e }
      | none =>
        let out2 := googleRunChunks stringify parse registry rest out.ctx
        { events := out.events ++ out2.events, ctx := out2.ctx,
          invocations := out.invocations ++ out2.invocations, err := out2.err }) = _
    rw [googleTranslate_plain stringify parse registry c context h1.1 hfr]
    dsimp only
    rw [ih context h2]
    rfl

/-- The usage tail emitted by the Google translator at the finish chunk. -/
def googleUsageTail (opts : LlmCompletionOpts) (meta : Option UsageMetadata) :
    List LlmChunkEv :=
  match opts.usage, meta with
  | true, some u =>
    [LlmChunkEv.usage
      { prompt_tokens := u.promptTokenCount, completion_tokens := u.candidatesTokenCount }]
  | _, _ => []

/-- Translating the finish chunk of a Google stream with no function calls
yields one done content event followed by the usage tail, and leaves
the context untouched. -/
theorem googleTranslate_finish (stringify : String → String) (parse : String → Option String)
    (registry : String → String → String) (chunk : GoogleChunk)
    (context : GoogleStreamingContext)
    (hfc : chunk.functionCalls.isEmpty = true) (hfr : chunk.finishReason.isSome = true) :
    googleNativeChunkToLlmChunk stringify parse registry chunk context
      = { events := LlmChunkEv.content chunk.text true ::
            googleUsageTail context.opts chunk.usageMetadata,
          ctx := context, invocations := [], err := none } := by
  unfold googleNativeChunkToLlmChunk
  rw [hfc]
  simp only [Bool.not_true, Bool.false_eq_true, if_false, hfr]
  rcases hu : context.opts.usage with _ | _ <;>
    rcases hm : chunk.usageMetadata with _ | u <;>
    simp [googleUsageTail, hu, hm]

/-- Scenario C for the Google adapter: a chunk sequence with no function
calls whose only finish signal is on the last chunk translates to the
initial not-done content events, then exactly one done content event,
then the usage tail; the context is preserved, nothing is invoked and
no error is thrown. -/
theorem googleRun_scenarioC (stringify : String → String) (parse : String → Option String)
    (registry : String → String → String) (init : List GoogleChunk) (last : GoogleChunk)
    (context : GoogleStreamingContext)
    (hinit : init.all (fun c => c.functionCalls.isEmpty && c.finishReason.isNone) = true)
    (hl1 : last.functionCalls.isEmpty = true) (hl2 : last.finishReason.isSome = true) :
    googleRunChunks stringify parse registry (init ++ [last]) context
      = { events := init.map (fun c => LlmChunkEv.content c.text false)
            ++ [LlmChunkEv.content last.text true]
            ++ googleUsageTail context.opts last.usageMetadata,
          ctx := context, invocations := [], err := none } := by
  induction init with
  | nil =>
    show (let out := googleNativeChunkToLlmChunk stringify parse registry last context
      match out.err with
      | some e => { out with err := some e }
      | none =>
        let out2 := googleRunChunks stringify parse registry [] out.ctx
        { events := out.events ++ out2.events, ctx := out2.ctx,
          invocations := out.invocations ++ out2.invocations, err := out2.err }) = _
    rw [googleTranslate_finish stringify parse registry last context hl1 hl2]
    simp [googleRunChunks]
  | cons c rest ih =>
    rw [List.all_cons, Bool.and_eq_true] at hinit
    obtain ⟨h1, h2⟩ := hinit
    rw [Bool.and_eq_true] at h1
    have hfr : c.finishReason = none := Option.isNone_iff_eq_none.mp h1.2
    show (let out := googleNativeChunkToLlmChunk stringify parse registry c context
      match out.err with
      | some e => { out with err := some e }
      | none =>
        let out2 := googleRunChunks stringify parse registry (rest ++ [last]) out.ctx
        { events := out.events ++ out2.events, ctx := out2.ctx,
          invocations := out.invocations ++ out2.invocations, err := out2.err }) = _
    rw [googleTranslate_plain stringify parse registry c context h1.1 hfr]
    dsimp only
    rw [ih h2]
    rfl

/-- The text of the content event the OpenAI translator emits at the
finish chunk (the first choice's delta content, defaulted to empty). -/
def oaiChunkText (chunk : OpenAIChunk) : String :=
  ((chunk.choices.head?.bind (fun c => c.delta.content)).getD "")

/-- The usage tail emitted by the OpenAI translator once done is latched. -/
def oaiUsageTail (opts : LlmCompletionOpts) (usage : Option UsageStats) : List LlmChunkEv :=
  if opts.usage then
    match usage with
    | some u => [LlmChunkEv.usage u]
    | none => []
  else []

/-- Translating an OpenAI chunk with no tool-call delta and no finish
signal yields only the delta's reasoning/content events, not done, and
leaves the context untouched. -/
theorem openaiTranslate_plain (parse : String → Option String)
    (registry : String → String → String) (chunk : OpenAIChunk)
    (context : OpenAIStreamingContext)
    (hd : oaiChunkToolCallDelta chunk = none)
    (hfin : oaiChunkFinish chunk = "")
    (hdone : context.done = false) :
    openaiNativeChunkToLlmChunk parse registry chunk context
      = { events := oaiReasoningEvs chunk false ++ oaiContentEvs chunk false,
          ctx := context, invocations := [], err := none } := by
  have hc1 : oaiToolFinishSet.contains (oaiChunkFinish chunk) = false := by rw [hfin]; rfl
  have hc2 : oaiDoneSet.contains (oaiChunkFinish chunk) = false := by rw [hfin]; rfl
  rcases context with ⟨cmodel, cthread, copts, ctc, cdone⟩
  simp only at hdone
  subst hdone
  unfold openaiNativeChunkToLlmChunk openaiAccStep
  rw [hd]
  dsimp only
  unfold openaiChunkMain
  rw [hc1, hc2]
  simp only [Bool.false_and, Bool.false_eq_true, if_false, Bool.and_false,
    List.nil_append, List.append_nil]

/-- Translating the finish chunk of an OpenAI stream with no tool-call
delta and an empty accumulator yields the reasoning events, one done
content event, then the usage tail, and latches done. -/
theorem openaiTranslate_finish (parse : String → Option String)
    (registry : String → String → String) (chunk : OpenAIChunk)
    (context : OpenAIStreamingContext)
    (hd : oaiChunkToolCallDelta chunk = none)
    (hfin : oaiDoneSet.contains (oaiChunkFinish chunk) = true)
    (htc : context.toolCalls = []) :
    openaiNativeChunkToLlmChunk parse registry chunk context
      = { events := oaiReasoningEvs chunk true
            ++ ([LlmChunkEv.content (oaiChunkText chunk) true]
            ++ oaiUsageTail context.opts chunk.usage),
          ctx := { context with done := true }, invocations := [], err := none } := by
  have hhead : ∃ c, chunk.choices.head? = some c := by
    rcases hh : chunk.choices.head? with _ | c
    · exfalso
      rw [oaiChunkFinish, hh] at hfin
      simp [oaiDoneSet] at hfin
    · exact ⟨c, rfl⟩
  obtain ⟨c, hc⟩ := hhead
  unfold openaiNativeChunkToLlmChunk openaiAccStep
  rw [hd]
  dsimp only
  unfold openaiChunkMain
  rw [htc]
  simp only [List.isEmpty_nil, Bool.not_true, Bool.and_false, Bool.false_eq_true, if_false,
    hfin, if_true]
  have hcontent : oaiContentEvs chunk true = [LlmChunkEv.content (oaiChunkText chunk) true] := by
    unfold oaiContentEvs oaiChunkText
    rw [hc]
    simp
  rw [hcontent]
  simp only [Bool.and_true, List.nil_append]
  rcases hu : context.opts.usage with _ | _
  · simp [oaiUsageTail, hu]
  · simp only [oaiUsageTail, hu, if_true, Bool.true_and, List.append_assoc]

/-- Scenario C for the OpenAI adapter: a chunk sequence with no tool-call
deltas, an empty accumulator, and whose only finish signal is on the
last chunk translates to the initial not-done events, then the last
chunk's reasoning events, then exactly one done content event, then
the usage tail; done is latched, nothing is invoked and no error is
thrown. -/
theorem openaiRun_scenarioC (parse : String → Option String)
    (registry : String → String → String) (init : List OpenAIChunk) (last : OpenAIChunk)
    (octx : OpenAIStreamingContext)
    (hinit : init.all (fun c =>
      (oaiChunkToolCallDelta c).isNone && (oaiChunkFinish c == "")) = true)
    (hl1 : oaiChunkToolCallDelta last = none)
    (hl2 : oaiDoneSet.contains (oaiChunkFinish last) = true)
    (hdone : octx.done = false) (htc : octx.toolCalls = []) :
    openaiRunChunks parse registry (init ++ [last]) octx
      = { events := concatMap (fun c => oaiReasoningEvs c false ++ oaiContentEvs c false) init
            ++ (oaiReasoningEvs last true
            ++ ([LlmChunkEv.content (oaiChunkText last) true]
            ++ oaiUsageTail octx.opts last.usage)),
          ctx := { octx with done := true }, invocations := [], err := none } := by
  induction init with
  | nil =>
    show (let out := openaiNativeChunkToLlmChunk parse registry last octx
      match out.err with
      | some e => { out with err := some e }
      | none =>
        let out2 := openaiRunChunks parse registry [] out.ctx
        { events := out.events ++ out2.events, ctx := out2.ctx,
          invocations := out.invocations ++ out2.invocations, err := out2.err }) = _
    rw [openaiTranslate_finish parse registry last octx hl1 hl2 htc]
    simp [openaiRunChunks, concatMap]
  | cons c rest ih =>
    rw [List.all_cons, Bool.and_eq_true] at hinit
    obtain ⟨h1, h2⟩ := hinit
    rw [Bool.and_eq_true] at h1
    have hcd : oaiChunkToolCallDelta c = none := Option.isNone_iff_eq_none.mp h1.1
    have hcf : oaiChunkFinish c = "" := by
      have := h1.2
      simpa using this
    show (let out := openaiNativeChunkToLlmChunk parse registry c octx
      match out.err with
      | some e => { out with err := some e }
      | none =>
        let out2 := openaiRunChunks parse registry (rest ++ [last]) out.ctx
        { events := out.events ++ out2.events, ctx := out2.ctx,
          invocations := out.invocations ++ out2.invocations, err := out2.err }) = _
    rw [openaiTranslate_plain parse registry c octx hcd hcf hdone]
    dsimp only
    rw [ih h2]
    simp [concatMap, List.append_assoc]

/-- A usage event is not a done content event. -/
theorem isUsage_not_contentDone (e : LlmChunkEv) (h : e.isUsage = true) :
    e.isContentDone = false := by
  cases e <;> simp_all [LlmChunkEv.isUsage, LlmChunkEv.isContentDone]

/-- Counting events in a sequence of the Scenario C shape: exactly one
done content event, and exactly as many usage events as the tail holds. -/
theorem scenarioC_counts (pre post : List LlmChunkEv) (t : String)
    (hpre : pre.all (fun e => !e.isContentDone && !e.isUsage) = true)
    (hpost : post.all LlmChunkEv.isUsage = true) :
    ((pre ++ [LlmChunkEv.content t true] ++ post).filter LlmChunkEv.isContentDone).length = 1
  ∧ ((pre ++ [LlmChunkEv.content t true] ++ post).filter LlmChunkEv.isUsage).length
      = post.length := by
  rw [List.all_eq_true] at hpre hpost
  have hpre1 : pre.filter LlmChunkEv.isContentDone = [] := by
    rw [List.filter_eq_nil]
    intro e he
    have := hpre e he
    rw [Bool.and_eq_true] at this
    simp only [Bool.not_eq_true'] at this
    simp [this.1]
  have hpre2 : pre.filter LlmChunkEv.isUsage = [] := by
    rw [List.filter_eq_nil]
    intro e he
    have := hpre e he
    rw [Bool.and_eq_true] at this
    simp only [Bool.not_eq_true'] at this
    simp [this.2]
  have hpost1 : post.filter LlmChunkEv.isContentDone = [] := by
    rw [List.filter_eq_nil]
    intro e he
    simp [isUsage_not_contentDone e (hpost e he)]
  have hpost2 : post.filter LlmChunkEv.isUsage = post := by
    rw [List.filter_eq_self]
    exact hpost
  constructor
  · rw [List.append_assoc, List.filter_append, hpre1, List.filter_append, hpost1]
    rfl
  · rw [List.append_assoc, List.filter_append, hpre2, List.filter_append, hpost2]
    rfl

/-- The Google usage tail consists of at most one usage event, present
only when tracking is on and the chunk carried usage. -/
theorem googleUsageTail_spec (opts : LlmCompletionOpts) (meta : Option UsageMetadata) :
    (googleUsageTail opts meta).all LlmChunkEv.isUsage = true
  ∧ (googleUsageTail opts meta).length ≤ 1
  ∧ (googleUsageTail opts meta ≠ [] → opts.usage = true ∧ meta.isSome = true) := by
  rcases hu : opts.usage with _ | _ <;> rcases hm : meta with _ | u <;>
    simp [googleUsageTail, hu, hm, LlmChunkEv.isUsage]

/-- The OpenAI usage tail consists of at most one usage event, present
only when tracking is on and the chunk carried usage. -/
theorem oaiUsageTail_spec (opts : LlmCompletionOpts) (usage : Option UsageStats) :
    (oaiUsageTail opts usage).all LlmChunkEv.isUsage = true
  ∧ (oaiUsageTail opts usage).length ≤ 1
  ∧ (oaiUsageTail opts usage ≠ [] → opts.usage = true ∧ usage.isSome = true) := by
  rcases hu : opts.usage with _ | _ <;> rcases hm : usage with _ | u <;>
    simp [oaiUsageTail, hu, hm, LlmChunkEv.isUsage]

/-- Reasoning events are never done content events nor usage events. -/
theorem oaiReasoningEvs_pred (c : OpenAIChunk) (d : Bool) :
    (oaiReasoningEvs c d).all (fun e => !e.isContentDone && !e.isUsage) = true := by
  unfold oaiReasoningEvs
  rcases c.choices.head? with _ | ch
  · rfl
  · dsimp only
    split
    · rfl
    · rfl

/-- Not-done content events are never done content events nor usage
events. -/
theorem oaiContentEvs_false_pred (c : OpenAIChunk) :
    (oaiContentEvs c false).all (fun e => !e.isContentDone && !e.isUsage) = true := by
  unfold oaiContentEvs
  rcases c.choices.head? with _ | ch
  · rfl
  · dsimp only
    split
    · rfl
    · rfl

/-- Pointwise all over a concatMap. -/
theorem concatMap_all {a : Type} (f : a → List LlmChunkEv) (p : LlmChunkEv → Bool) :
    ∀ l : List a, (∀ x ∈ l, (f x).all p = true) → (concatMap f l).all p = true := by
  intro l
  induction l with
  | nil => intro _; rfl
  | cons x t ih =>
    intro h
    rw [concatMap, List.all_append]
    rw [Bool.and_eq_true]
    exact ⟨h x (List.mem_cons_self x t), ih (fun y hy => h y (List.mem_cons_of_mem x hy))⟩

/-- C3: on a streaming turn whose backend chunks contain no tool calls and
whose only finish signal is on the last chunk, the translated event
sequence of either adapter contains exactly one content event with the
done flag set; at most one usage event is emitted, only after that
done content event, and only when usage tracking is enabled and the
backend supplied usage on the finish chunk. -/
theorem C3_single_done_content (stringify : String → String) (parse : String → Option String)
    (registry : String → String → String)
    (ginit : List GoogleChunk) (glast : GoogleChunk) (gctx : GoogleStreamingContext)
    (oinit : List OpenAIChunk) (olast : OpenAIChunk) (octx : OpenAIStreamingContext)
    (hg1 : ginit.all (fun c => c.functionCalls.isEmpty && c.finishReason.isNone) = true)
    (hg2 : glast.functionCalls.isEmpty = true) (hg3 : glast.finishReason.isSome = true)
    (ho1 : oinit.all (fun c =>
      (oaiChunkToolCallDelta c).isNone && (oaiChunkFinish c == "")) = true)
    (ho2 : oaiChunkToolCallDelta olast = none)
    (ho3 : oaiDoneSet.contains (oaiChunkFinish olast) = true)
    (ho4 : octx.done = false) (ho5 : octx.toolCalls = []) :
    (∃ evs ctx2 pre post,
      googleRunChunks stringify parse registry (ginit ++ [glast]) gctx
        = { events := evs, ctx := ctx2, invocations := [], err := none }
      ∧ evs = pre ++ [LlmChunkEv.content glast.text true] ++ post
      ∧ pre.all (fun e => !e.isContentDone && !e.isUsage) = true
      ∧ (evs.filter LlmChunkEv.isContentDone).length = 1
      ∧ (evs.filter LlmChunkEv.isUsage).length ≤ 1
      ∧ post.all LlmChunkEv.isUsage = true
      ∧ (post ≠ [] → gctx.opts.usage = true ∧ glast.usageMetadata.isSome = true))
  ∧ (∃ evs ctx2 pre post,
      openaiRunChunks parse registry (oinit ++ [olast]) octx
        = { events := evs, ctx := ctx2, invocations := [], err := none }
      ∧ evs = pre ++ [LlmChunkEv.content (oaiChunkText olast) true] ++ post
      ∧ pre.all (fun e => !e.isContentDone && !e.isUsage) = true
      ∧ (evs.filter LlmChunkEv.isContentDone).length = 1
      ∧ (evs.filter LlmChunkEv.isUsage).length ≤ 1
      ∧ post.all LlmChunkEv.isUsage = true
      ∧ (post ≠ [] → octx.opts.usage = true ∧ olast.usage.isSome = true)) := by
  constructor
  · obtain ⟨ht1, ht2, ht3⟩ := googleUsageTail_spec gctx.opts glast.usageMetadata
    have hpre : (ginit.map (fun c => LlmChunkEv.content c.text false)).all
        (fun e => !e.isContentDone && !e.isUsage) = true := by
      rw [List.all_eq_true]
      intro e he
      obtain ⟨c, _, rfl⟩ := List.mem_map.mp he
      rfl
    obtain ⟨hc1, hc2⟩ := scenarioC_counts
      (ginit.map (fun c => LlmChunkEv.content c.text false))
      (googleUsageTail gctx.opts glast.usageMetadata) glast.text hpre ht1
    refine ⟨_, gctx, ginit.map (fun c => LlmChunkEv.content c.text false),
      googleUsageTail gctx.opts glast.usageMetadata,
      googleRun_scenarioC stringify parse registry ginit glast gctx hg1 hg2 hg3,
      rfl, hpre, hc1, ?_, ht1, ht3⟩
    rw [hc2]
    exact ht2
  · obtain ⟨ht1, ht2, ht3⟩ := oaiUsageTail_spec octx.opts olast.usage
    have hpre : ((concatMap (fun c => oaiReasoningEvs c false ++ oaiContentEvs c false) oinit)
        ++ oaiReasoningEvs olast true).all
        (fun e => !e.isContentDone && !e.isUsage) = true := by
      rw [List.all_append, Bool.and_eq_true]
      constructor
      · refine concatMap_all _ _ oinit (fun c _ => ?_)
        rw [List.all_append, Bool.and_eq_true]
        exact ⟨oaiReasoningEvs_pred c false, oaiContentEvs_false_pred c⟩
      · exact oaiReasoningEvs_pred olast true
    obtain ⟨hc1, hc2⟩ := scenarioC_counts
      ((concatMap (fun c => oaiReasoningEvs c false ++ oaiContentEvs c false) oinit)
        ++ oaiReasoningEvs olast true)
      (oaiUsageTail octx.opts olast.usage) (oaiChunkText olast) hpre ht1
    refine ⟨((concatMap (fun c => oaiReasoningEvs c false ++ oaiContentEvs c false) oinit)
        ++ oaiReasoningEvs olast true)
        ++ [LlmChunkEv.content (oaiChunkText olast) true]
        ++ oaiUsageTail octx.opts olast.usage,
      { octx with done := true },
      (concatMap (fun c => oaiReasoningEvs c false ++ oaiContentEvs c false) oinit)
        ++ oaiReasoningEvs olast true,
      oaiUsageTail octx.opts olast.usage, ?_, rfl, hpre, hc1, ?_, ht1, ht3⟩
    · rw [openaiRun_scenarioC parse registry oinit olast octx ho1 ho2 ho3 ho4 ho5]
      simp [List.append_assoc]
    · rw [hc2]
      exact ht2

/-- A Google content chunk with no finish signal. -/
def gchunkA : GoogleChunk := { functionCalls := [], text := "he" }

/-- A second Google content chunk with no finish signal. -/
def gchunkB : GoogleChunk := { functionCalls := [], text := "llo" }

/-- The Google finish chunk, carrying usage. -/
def gchunkEnd : GoogleChunk :=
  { functionCalls := [], text := "!", finishReason := some "STOP",
    usageMetadata := some { promptTokenCount := 3, candidatesTokenCount := 2 } }

/-- A Google streaming context with usage tracking on. -/
def gctxW : GoogleStreamingContext :=
  { content := [], opts := { usage := true }, toolCalls := [] }

/-- An OpenAI content chunk with no finish signal. -/
def ochunkA : OpenAIChunk := { choices := [{ delta := { content := some "hi" } }] }

/-- The OpenAI finish chunk, carrying usage. -/
def ochunkEnd : OpenAIChunk :=
  { choices := [{ delta := {}, finish_reason := some "stop" }],
    usage := some { prompt_tokens := 5, completion_tokens := 1 } }

/-- An OpenAI streaming context with usage tracking on, not yet done, and
an empty accumulator. -/
def octxW : OpenAIStreamingContext :=
  { model := "gpt-4", thread := [], opts := { usage := true }, toolCalls := [],
    done := false }

/-- C3 witness: the scenario statement instantiated on concrete streams
(two content chunks then a finish chunk for Google; one content chunk
then a finish chunk for OpenAI). -/
theorem C3_witness :
    ([gchunkA, gchunkB].all (fun c => c.functionCalls.isEmpty && c.finishReason.isNone) = true)
  ∧ gchunkEnd.functionCalls.isEmpty = true
  ∧ gchunkEnd.finishReason.isSome = true
  ∧ ([ochunkA].all (fun c =>
      (oaiChunkToolCallDelta c).isNone && (oaiChunkFinish c == "")) = true)
  ∧ oaiChunkToolCallDelta ochunkEnd = none
  ∧ oaiDoneSet.contains (oaiChunkFinish ochunkEnd) = true
  ∧ octxW.done = false
  ∧ octxW.toolCalls = []
  ∧ ((∃ evs ctx2 pre post,
      googleRunChunks (fun s => s) parseW regW ([gchunkA, gchunkB] ++ [gchunkEnd]) gctxW
        = { events := evs, ctx := ctx2, invocations := [], err := none }
      ∧ evs = pre ++ [LlmChunkEv.content gchunkEnd.text true] ++ post
      ∧ pre.all (fun e => !e.isContentDone && !e.isUsage) = true
      ∧ (evs.filter LlmChunkEv.isContentDone).length = 1
      ∧ (evs.filter LlmChunkEv.isUsage).length ≤ 1
      ∧ post.all LlmChunkEv.isUsage = true
      ∧ (post ≠ [] → gctxW.opts.usage = true ∧ gchunkEnd.usageMetadata.isSome = true))
    ∧ (∃ evs ctx2 pre post,
      openaiRunChunks parseW regW ([ochunkA] ++ [ochunkEnd]) octxW
        = { events := evs, ctx := ctx2, invocations := [], err := none }
      ∧ evs = pre ++ [LlmChunkEv.content (oaiChunkText ochunkEnd) true] ++ post
      ∧ pre.all (fun e => !e.isContentDone && !e.isUsage) = true
      ∧ (evs.filter LlmChunkEv.isContentDone).length = 1
      ∧ (evs.filter LlmChunkEv.isUsage).length ≤ 1
      ∧ post.all LlmChunkEv.isUsage = true
      ∧ (post ≠ [] → octxW.opts.usage = true ∧ ochunkEnd.usage.isSome = true))) :=
  ⟨by decide, by decide, by decide, by decide, by decide, by decide, rfl, rfl,
    C3_single_done_content (fun s => s) parseW regW [gchunkA, gchunkB] gchunkEnd gctxW
      [ochunkA] ochunkEnd octxW (by decide) (by decide) (by decide) (by decide) (by decide)
      (by decide) rfl rfl⟩

/-! ## C7 -/

/-- When every accumulated record's args parse, the Google streaming tool
loop succeeds: three tool status events per call, one functionResponse
part per call, and one registry invocation per call, all preserving the
reported order. -/
theorem googleToolLoop_spec (parse : String → Option String)
    (registry : String → String → String) :
    ∀ tcs : List GoogleLlmToolCall,
    tcs.all (fun tc => (parse tc.args).isSome) = true →
    googleToolLoop parse registry tcs =
      (concatMap (fun tc => [LlmChunkEv.tool tc.function false,
         LlmChunkEv.tool tc.function false, LlmChunkEv.tool tc.function true]) tcs,
       tcs.filterMap (fun tc => (parse tc.args).map (fun a =>
         GPart.functionResponse tc.function (registry tc.function a))),
       tcs.filterMap (fun tc => (parse tc.args).map (fun a => (tc.function, a))),
       none) := by
  intro tcs
  induction tcs with
  | nil => intro _; rfl
  | cons tc rest ih =>
    intro h
    rw [List.all_cons, Bool.and_eq_true] at h
    obtain ⟨h1, h2⟩ := h
    cases hp : parse tc.args with
    | none => rw [hp] at h1; simp at h1
    | some a =>
      simp only [googleToolLoop, hp, ih h2, concatMap, List.filterMap_cons, Option.map_some']
      rfl

/-- When every accumulated record's args parse, the OpenAI streaming tool
loop succeeds: two tool status events per call, the assistant
announcement and tool-response messages per call, and one registry
invocation per call, all preserving the reported order. -/
theorem openaiStreamToolLoop_spec (parse : String → Option String)
    (registry : String → String → String) :
    ∀ tcs : List OpenAILlmToolCall,
    tcs.all (fun tc => (parse tc.args).isSome) = true →
    openaiStreamToolLoop parse registry tcs =
      (concatMap (fun tc => [LlmChunkEv.tool tc.function false,
         LlmChunkEv.tool tc.function true]) tcs,
       concatMap (fun tc =>
         match parse tc.args with
         | some a => [OAIStreamMsg.assistantToolCalls tc.message,
             OAIStreamMsg.toolResult tc.id tc.function (registry tc.function a)]
         | none => []) tcs,
       tcs.filterMap (fun tc => (parse tc.args).map (fun a => (tc.function, a))),
       none) := by
  intro tcs
  induction tcs with
  | nil => intro _; rfl
  | cons tc rest ih =>
    intro h
    rw [List.all_cons, Bool.and_eq_true] at h
    obtain ⟨h1, h2⟩ := h
    cases hp : parse tc.args with
    | none => rw [hp] at h1; simp at h1
    | some a =>
      simp only [openaiStreamToolLoop, hp, ih h2, concatMap, List.filterMap_cons,
        Option.map_some']
      rfl

/-- Tool status events are never content events. -/
theorem googleLoopEvs_noContent (tcs : List GoogleLlmToolCall) :
    (concatMap (fun tc => [LlmChunkEv.tool tc.function false,
      LlmChunkEv.tool tc.function false, LlmChunkEv.tool tc.function true]) tcs).all
      (fun e => !e.isContent) = true :=
  concatMap_all _ _ tcs (fun _ _ => rfl)

/-- Tool status events are never content events (OpenAI loop shape). -/
theorem oaiLoopEvs_noContent (tcs : List OpenAILlmToolCall) :
    (concatMap (fun tc => [LlmChunkEv.tool tc.function false,
      LlmChunkEv.tool tc.function true]) tcs).all (fun e => !e.isContent) = true :=
  concatMap_all _ _ tcs (fun _ _ => rfl)

/-- The last element of a list extended by one element. -/
theorem getLast_append_singleton {a : Type} (l : List a) (x : a) :
    (l ++ [x]).getLast? = some x := by
  rw [List.getLast?_concat]

/-- C7: when the backend signals that the pending tool-call set is
complete, either translator executes every tool in the reported order,
appends the assistant announcement and the tool results to the
streaming thread, opens a brand-new stream (resetting the
accumulator), yields the stream-switch event last, and yields no
content event from that chunk. -/
theorem C7_tool_completion (stringify : String → String) (parse : String → Option String)
    (registry : String → String → String)
    (gchunk : GoogleChunk) (gcx : GoogleStreamingContext)
    (ochunk : OpenAIChunk) (ocx : OpenAIStreamingContext)
    (hg1 : gchunk.functionCalls.isEmpty = false)
    (hg2 : (googleToolCallRecords stringify gchunk).all
      (fun tc => (parse tc.args).isSome) = true)
    (ho1 : oaiChunkToolCallDelta ochunk = none)
    (ho2 : oaiToolFinishSet.contains (oaiChunkFinish ochunk) = true)
    (ho3 : ocx.toolCalls.isEmpty = false)
    (ho4 : ocx.toolCalls.all (fun tc => (parse tc.args).isSome) = true) :
    ((googleNativeChunkToLlmChunk stringify parse registry gchunk gcx).err = none
      ∧ (googleNativeChunkToLlmChunk stringify parse registry gchunk gcx).invocations
          = (googleToolCallRecords stringify gchunk).filterMap (fun tc =>
              (parse tc.args).map (fun a => (tc.function, a)))
      ∧ (googleNativeChunkToLlmChunk stringify parse registry gchunk gcx).ctx.content
          = gcx.content ++
            [{ role := "assistant", parts := gchunk.parts },
             { role := "tool", parts := (googleToolCallRecords stringify gchunk).filterMap
                (fun tc => (parse tc.args).map (fun a =>
                  GPart.functionResponse tc.function (registry tc.function a))) }]
      ∧ (googleNativeChunkToLlmChunk stringify parse registry gchunk gcx).ctx.toolCalls = []
      ∧ (googleNativeChunkToLlmChunk stringify parse registry gchunk gcx).events.getLast?
          = some LlmChunkEv.streamSwitch
      ∧ (googleNativeChunkToLlmChunk stringify parse registry gchunk gcx).events.all
          (fun e => !e.isContent) = true)
  ∧ ((openaiNativeChunkToLlmChunk parse registry ochunk ocx).err = none
      ∧ (openaiNativeChunkToLlmChunk parse registry ochunk ocx).invocations
          = ocx.toolCalls.filterMap (fun tc =>
              (parse tc.args).map (fun a => (tc.function, a)))
      ∧ (openaiNativeChunkToLlmChunk parse registry ochunk ocx).ctx.thread
          = ocx.thread ++ concatMap (fun tc =>
              match parse tc.args with
              | some a => [OAIStreamMsg.assistantToolCalls tc.message,
                  OAIStreamMsg.toolResult tc.id tc.function (registry tc.function a)]
              | none => []) ocx.toolCalls
      ∧ (openaiNativeChunkToLlmChunk parse registry ochunk ocx).ctx.toolCalls = []
      ∧ (openaiNativeChunkToLlmChunk parse registry ochunk ocx).events.getLast?
          = some LlmChunkEv.streamSwitch
      ∧ (openaiNativeChunkToLlmChunk parse registry ochunk ocx).events.all
          (fun e => !e.isContent) = true) := by
  have hloopG := googleToolLoop_spec parse registry (googleToolCallRecords stringify gchunk) hg2
  have hloopO := openaiStreamToolLoop_spec parse registry ocx.toolCalls ho4
  constructor
  · refine ⟨?_, ?_, ?_, ?_, ?_, ?_⟩ <;>
      (unfold googleNativeChunkToLlmChunk;
       rw [hg1];
       simp only [Bool.not_false, if_true];
       try rw [hloopG];
       try dsimp only) <;>
      first
        | rfl
        | exact getLast_append_singleton _ _
        | (rw [List.all_append, Bool.and_eq_true];
           exact ⟨googleLoopEvs_noContent _, rfl⟩)
  · refine ⟨?_, ?_, ?_, ?_, ?_, ?_⟩ <;>
      (unfold openaiNativeChunkToLlmChunk openaiAccStep;
       rw [ho1];
       dsimp only;
       unfold openaiChunkMain;
       rw [ho2, ho3];
       simp only [Bool.not_false, Bool.true_and, if_true];
       try rw [hloopO];
       try dsimp only) <;>
      first
        | rfl
        | exact getLast_append_singleton _ _
        | (rw [List.all_append, Bool.and_eq_true];
           refine ⟨?_, rfl⟩;
           rw [List.nil_append];

           exact oaiLoopEvs_noContent _)

/-- A Google chunk reporting one tool call. -/
def gchunkTool : GoogleChunk :=
  { functionCalls := [{ name := "get_weather", args := "Lyon" }],
    parts := [GPart.functionCall "get_weather" "Lyon"] }

/-- An OpenAI chunk signalling that the pending tool-call set is
complete. -/
def ochunkToolEnd : OpenAIChunk :=
  { choices := [{ delta := {}, finish_reason := some "tool_calls" }] }

/-- C7 witness: the tool-completion statement instantiated on a concrete
Google chunk with one call and a concrete OpenAI context with one
pending record. -/
theorem C7_witness :
    gchunkTool.functionCalls.isEmpty = false
  ∧ ((googleToolCallRecords (fun s => s) gchunkTool).all
      (fun tc => (parseW tc.args).isSome) = true)
  ∧ oaiChunkToolCallDelta ochunkToolEnd = none
  ∧ oaiToolFinishSet.contains (oaiChunkFinish ochunkToolEnd) = true
  ∧ octxOne.toolCalls.isEmpty = false
  ∧ (octxOne.toolCalls.all (fun tc => (parseW tc.args).isSome) = true)
  ∧ (((googleNativeChunkToLlmChunk (fun s => s) parseW regW gchunkTool gctxW).err = none
      ∧ (googleNativeChunkToLlmChunk (fun s => s) parseW regW gchunkTool gctxW).invocations
          = (googleToolCallRecords (fun s => s) gchunkTool).filterMap (fun tc =>
              (parseW tc.args).map (fun a => (tc.function, a)))
      ∧ (googleNativeChunkToLlmChunk (fun s => s) parseW regW gchunkTool gctxW).ctx.content
          = gctxW.content ++
            [{ role := "assistant", parts := gchunkTool.parts },
             { role := "tool", parts := (googleToolCallRecords (fun s => s) gchunkTool).filterMap
                (fun tc => (parseW tc.args).map (fun a =>
                  GPart.functionResponse tc.function (regW tc.function a))) }]
      ∧ (googleNativeChunkToLlmChunk (fun s => s) parseW regW gchunkTool gctxW).ctx.toolCalls = []
      ∧ (googleNativeChunkToLlmChunk (fun s => s) parseW regW gchunkTool gctxW).events.getLast?
          = some LlmChunkEv.streamSwitch
      ∧ (googleNativeChunkToLlmChunk (fun s => s) parseW regW gchunkTool gctxW).events.all
          (fun e => !e.isContent) = true)
    ∧ ((openaiNativeChunkToLlmChunk parseW regW ochunkToolEnd octxOne).err = none
      ∧ (openaiNativeChunkToLlmChunk parseW regW ochunkToolEnd octxOne).invocations
          = octxOne.toolCalls.filterMap (fun tc =>
              (parseW tc.args).map (fun a => (tc.function, a)))
      ∧ (openaiNativeChunkToLlmChunk parseW regW ochunkToolEnd octxOne).ctx.thread
          = octxOne.thread ++ concatMap (fun tc =>
              match parseW tc.args with
              | some a => [OAIStreamMsg.assistantToolCalls tc.message,
                  OAIStreamMsg.toolResult tc.id tc.function (regW tc.function a)]
              | none => []) octxOne.toolCalls
      ∧ (openaiNativeChunkToLlmChunk parseW regW ochunkToolEnd octxOne).ctx.toolCalls = []
      ∧ (openaiNativeChunkToLlmChunk parseW regW ochunkToolEnd octxOne).events.getLast?
          = some LlmChunkEv.streamSwitch
      ∧ (openaiNativeChunkToLlmChunk parseW regW ochunkToolEnd octxOne).events.all
          (fun e => !e.isContent) = true)) :=
  ⟨by decide, by decide, by decide, by decide, by decide, by decide,
    C7_tool_completion (fun s => s) parseW regW gchunkTool gctxW ochunkToolEnd octxOne
      (by decide) (by decide) (by decide) (by decide) (by decide) (by decide)⟩

/-! ## C8 -/

/-- When a record's args fail to parse, the Google streaming tool loop
throws there: the calls before it were executed (three events and one
invocation each), the failing call got its preparation event but was
not invoked, and nothing after it ran. -/
theorem googleToolLoop_err (parse : String → Option String)
    (registry : String → String → String) (bad : GoogleLlmToolCall)
    (rest : List GoogleLlmToolCall) (hbad : parse bad.args = none) :
    ∀ good : List GoogleLlmToolCall,
    good.all (fun tc => (parse tc.args).isSome) = true →
    googleToolLoop parse registry (good ++ bad :: rest) =
      (concatMap (fun tc => [LlmChunkEv.tool tc.function false,
         LlmChunkEv.tool tc.function false, LlmChunkEv.tool tc.function true]) good
         ++ [LlmChunkEv.tool bad.function false],
       good.filterMap (fun tc => (parse tc.args).map (fun a =>
         GPart.functionResponse tc.function (registry tc.function a))),
       good.filterMap (fun tc => (parse tc.args).map (fun a => (tc.function, a))),
       some ("tool call " ++ bad.function ++ " with invalid JSON args")) := by
  intro good
  induction good with
  | nil =>
    intro _
    simp only [List.nil_append, googleToolLoop, hbad, concatMap, List.filterMap_nil]
  | cons tc t ih =>
    intro h
    rw [List.all_cons, Bool.and_eq_true] at h
    obtain ⟨h1, h2⟩ := h
    cases hp : parse tc.args with
    | none => rw [hp] at h1; simp at h1
    | some a =>
      simp only [List.cons_append, googleToolLoop, hp, List.append_eq, ih h2, concatMap,
        List.filterMap_cons, Option.map_some', List.nil_append, List.append_assoc]

/-- When a record's args fail to parse, the OpenAI streaming tool loop
throws there: the calls before it were executed (two events, two thread
messages and one invocation each), and the failing call emitted
nothing, pushed nothing and was not invoked. -/
theorem openaiStreamToolLoop_err (parse : String → Option String)
    (registry : String → String → String) (bad : OpenAILlmToolCall)
    (rest : List OpenAILlmToolCall) (hbad : parse bad.args = none) :
    ∀ good : List OpenAILlmToolCall,
    good.all (fun tc => (parse tc.args).isSome) = true →
    openaiStreamToolLoop parse registry (good ++ bad :: rest) =
      (concatMap (fun tc => [LlmChunkEv.tool tc.function false,
         LlmChunkEv.tool tc.function true]) good,
       concatMap (fun tc =>
         match parse tc.args with
         | some a => [OAIStreamMsg.assistantToolCalls tc.message,
             OAIStreamMsg.toolResult tc.id tc.function (registry tc.function a)]
         | none => []) good,
       good.filterMap (fun tc => (parse tc.args).map (fun a => (tc.function, a))),
       some ("tool call " ++ bad.function ++ " with invalid JSON args: " ++ bad.args)) := by
  intro good
  induction good with
  | nil =>
    intro _
    simp only [List.nil_append, openaiStreamToolLoop, hbad, concatMap, List.filterMap_nil]
  | cons tc t ih =>
    intro h
    rw [List.all_cons, Bool.and_eq_true] at h
    obtain ⟨h1, h2⟩ := h
    cases hp : parse tc.args with
    | none => rw [hp] at h1; simp at h1
    | some a =>
      simp only [List.cons_append, openaiStreamToolLoop, hp, List.append_eq, ih h2, concatMap,
        List.filterMap_cons, Option.map_some', List.nil_append, List.append_assoc]

/-- When a call's arguments fail to parse, the OpenAI non-streaming tool
loop throws. -/
theorem openaiProcessCalls_err (parse : String → Option String)
    (registry : String → String → String) (bad : OpenAIToolCall)
    (rest : List OpenAIToolCall) (hbad : parse bad.arguments = none) :
    ∀ good : List OpenAIToolCall,
    good.all (fun tc => (parse tc.arguments).isSome) = true →
    openaiProcessCalls parse registry (good ++ bad :: rest) =
      Except.error ("tool call " ++ bad.name ++ " with invalid JSON args: "
        ++ bad.arguments) := by
  intro good
  induction good with
  | nil =>
    intro _
    simp only [List.nil_append, openaiProcessCalls, hbad]
  | cons tc t ih =>
    intro h
    rw [List.all_cons, Bool.and_eq_true] at h
    obtain ⟨h1, h2⟩ := h
    cases hp : parse tc.arguments with
    | none => rw [hp] at h1; simp at h1
    | some a =>
      simp only [List.cons_append, openaiProcessCalls, hp, List.append_eq, ih h2]

/-- C8: a tool call whose serialized arguments fail to parse as JSON is
fatal to that call: the translator (either adapter) throws an
invocation error, the failing tool is not invoked (only the calls
before it were), and the OpenAI non-streaming loop likewise aborts the
turn with an error; the parse is attempted exactly once, never
retried. -/
theorem C8_invalid_json_fatal (stringify : String → String) (parse : String → Option String)
    (registry : String → String → String)
    (gchunk : GoogleChunk) (gcx : GoogleStreamingContext)
    (ochunk : OpenAIChunk) (ocx : OpenAIStreamingContext)
    (ohop : OpenAIHop) (ohops : List OpenAIHop) (othread : List OAIChatMsg)
    (opts : LlmCompletionOpts)
    (ggood : List GoogleLlmToolCall) (gbad : GoogleLlmToolCall)
    (grest : List GoogleLlmToolCall)
    (ogood : List OpenAILlmToolCall) (obad : OpenAILlmToolCall)
    (orest : List OpenAILlmToolCall)
    (cgood : List OpenAIToolCall) (cbad : OpenAIToolCall) (crest : List OpenAIToolCall)
    (hgrec : googleToolCallRecords stringify gchunk = ggood ++ gbad :: grest)
    (hggood : ggood.all (fun tc => (parse tc.args).isSome) = true)
    (hgbad : parse gbad.args = none)
    (ho1 : oaiChunkToolCallDelta ochunk = none)
    (ho2 : oaiToolFinishSet.contains (oaiChunkFinish ochunk) = true)
    (horec : ocx.toolCalls = ogood ++ obad :: orest)
    (hogood : ogood.all (fun tc => (parse tc.args).isSome) = true)
    (hobad : parse obad.args = none)
    (hc1 : ohop.finish_reason = some "tool_calls")
    (hcrec : ohop.tool_calls = cgood ++ cbad :: crest)
    (hcgood : cgood.all (fun tc => (parse tc.arguments).isSome) = true)
    (hcbad : parse cbad.arguments = none) :
    ((googleNativeChunkToLlmChunk stringify parse registry gchunk gcx).err.isSome = true
      ∧ (googleNativeChunkToLlmChunk stringify parse registry gchunk gcx).invocations
          = ggood.filterMap (fun tc => (parse tc.args).map (fun a => (tc.function, a))))
  ∧ ((openaiNativeChunkToLlmChunk parse registry ochunk ocx).err.isSome = true
      ∧ (openaiNativeChunkToLlmChunk parse registry ochunk ocx).invocations
          = ogood.filterMap (fun tc => (parse tc.args).map (fun a => (tc.function, a))))
  ∧ (∃ e, openaiChat parse registry opts (ohop :: ohops) othread = Except.error e) := by
  refine ⟨?_, ?_, ?_⟩
  · have hne : gchunk.functionCalls.isEmpty = false := by
      cases hfc : gchunk.functionCalls with
      | nil =>
        rw [googleToolCallRecords, hfc] at hgrec
        simp at hgrec
      | cons a l => rfl
    have hgoal : googleToolCallRecords stringify gchunk = ggood ++ gbad :: grest := hgrec
    constructor <;>
      (unfold googleNativeChunkToLlmChunk;
       rw [hne];
       simp only [Bool.not_false, if_true];
       rw [hgoal, googleToolLoop_err parse registry gbad grest hgbad ggood hggood];
       try rfl)
  · have hne2 : (ogood ++ obad :: orest).isEmpty = false := by
      cases ogood <;> rfl
    constructor <;>
      (unfold openaiNativeChunkToLlmChunk openaiAccStep;
       rw [ho1];
       dsimp only;
       unfold openaiChunkMain;
       rw [ho2, horec, hne2];
       simp only [Bool.not_false, Bool.true_and, if_true];
       rw [openaiStreamToolLoop_err parse registry obad orest hobad ogood hogood];
       try rfl)
  · rw [openaiChat_cons_eq]
    have : (ohop.finish_reason == some "tool_calls") = true := by
      rw [hc1]; rfl
    rw [this, if_pos rfl, hcrec,
      openaiProcessCalls_err parse registry cbad crest hcbad cgood hcgood]
    exact ⟨_, rfl⟩

/-- A parser that rejects the string BAD and accepts everything else. -/
def parseBad : String → Option String := fun s => if s == "BAD" then none else some s

/-- A well-formed accumulated Google record. -/
def grecOk : GoogleLlmToolCall :=
  { id := "ok_tool", message := "", function := "ok_tool", args := "Lyon" }

/-- A Google record whose serialized args do not parse. -/
def grecBad : GoogleLlmToolCall :=
  { id := "bad_tool", message := "", function := "bad_tool", args := "BAD" }

/-- A Google chunk whose second call has unparseable args. -/
def gchunkBad : GoogleChunk :=
  { functionCalls := [{ name := "ok_tool", args := "Lyon" },
                      { name := "bad_tool", args := "BAD" }] }

/-- A well-formed accumulated OpenAI record. -/
def orecOk : OpenAILlmToolCall :=
  { id := "call_1", message := [], function := "get_weather", args := "Lyon" }

/-- An OpenAI record whose accumulated args do not parse. -/
def orecBad : OpenAILlmToolCall :=
  { id := "call_2", message := [], function := "get_time", args := "BAD" }

/-- An OpenAI streaming context holding one good and one bad record. -/
def ocxBad : OpenAIStreamingContext :=
  { model := "gpt-4", thread := [], opts := {}, toolCalls := [orecOk, orecBad],
    done := false }

/-- A non-streaming OpenAI tool call with unparseable arguments. -/
def chopBad : OpenAIToolCall := { id := "call_9", name := "get_time", arguments := "BAD" }

/-- A non-streaming OpenAI hop requesting the unparseable tool call. -/
def ohopBad : OpenAIHop :=
  { finish_reason := some "tool_calls", tool_calls := [chopBad] }

/-- C8 witness: the fatal-parse-failure statement instantiated on concrete
inputs for all three code paths. -/
theorem C8_witness :
    googleToolCallRecords (fun s => s) gchunkBad = [grecOk] ++ grecBad :: []
  ∧ ([grecOk].all (fun tc => (parseBad tc.args).isSome) = true)
  ∧ parseBad grecBad.args = none
  ∧ oaiChunkToolCallDelta ochunkToolEnd = none
  ∧ oaiToolFinishSet.contains (oaiChunkFinish ochunkToolEnd) = true
  ∧ ocxBad.toolCalls = [orecOk] ++ orecBad :: []
  ∧ ([orecOk].all (fun tc => (parseBad tc.args).isSome) = true)
  ∧ parseBad orecBad.args = none
  ∧ ohopBad.finish_reason = some "tool_calls"
  ∧ ohopBad.tool_calls = [] ++ chopBad :: []
  ∧ (([] : List OpenAIToolCall).all (fun tc => (parseBad tc.arguments).isSome) = true)
  ∧ parseBad chopBad.arguments = none
  ∧ (((googleNativeChunkToLlmChunk (fun s => s) parseBad regW gchunkBad gctxW).err.isSome
        = true
      ∧ (googleNativeChunkToLlmChunk (fun s => s) parseBad regW gchunkBad gctxW).invocations
          = [grecOk].filterMap (fun tc => (parseBad tc.args).map (fun a => (tc.function, a))))
    ∧ ((openaiNativeChunkToLlmChunk parseBad regW ochunkToolEnd ocxBad).err.isSome = true
      ∧ (openaiNativeChunkToLlmChunk parseBad regW ochunkToolEnd ocxBad).invocations
          = [orecOk].filterMap (fun tc => (parseBad tc.args).map (fun a => (tc.function, a))))
    ∧ (∃ e, openaiChat parseBad regW {} (ohopBad :: []) [] = Except.error e)) :=
  ⟨by decide, by decide, by decide, by decide, by decide, by decide, by decide, by decide,
   by decide, by decide, by decide, by decide,
   C8_invalid_json_fatal (fun s => s) parseBad regW gchunkBad gctxW ochunkToolEnd ocxBad
     ohopBad [] [] {} [grecOk] grecBad [] [orecOk] orecBad [] [] chopBad []
     (by decide) (by decide) (by decide) (by decide) (by decide) (by decide) (by decide)
     (by decide) (by decide) (by decide) (by decide) (by decide)⟩

/-- C1 witness: the amended characterisation instantiated on concrete
inputs for all three injection paths. -/
theorem C1_witness :
    (getModel [toolW] "gemini-1.5-pro" "inst" { tools := some true }).tools.isSome = true
  ∧ (getFunctionCallingOptions modelSupportsTools [toolW] "gpt-4"
      { top_k := some 40 }).isSome = true
  ∧ (getFunctionCallingOptions openrouterModelSupportsTools [toolW] "mistral"
      { top_k := some 40 }).isSome = true :=
  ⟨(C1_amended [toolW] "gemini-1.5-pro" "inst" { tools := some true }).1.mpr
     ⟨Or.inl rfl, by decide, by decide⟩,
   (C1_amended [toolW] "gpt-4" "inst" { top_k := some 40 }).2.1.mpr
     ⟨by decide, by decide, by decide, by decide⟩,
   (C1_amended [toolW] "mistral" "inst" { top_k := some 40 }).2.2.mpr
     ⟨by decide, by decide, by decide⟩⟩

/-- C10 witness: the amended statement instantiated at fully-set options. -/
theorem C10_witness :
    getGenerationConfig { optsAllSet with temperature := some 0 }
      = getGenerationConfig { optsAllSet with temperature := none }
  ∧ getCompletionOpts "gpt-4" { optsAllSet with top_k := some 0 }
      = getCompletionOpts "gpt-4" { optsAllSet with top_k := none } :=
  ⟨(C10_amended optsAllSet "gpt-4" "inst" modelSupportsTools [toolW]).1,
   (C10_amended optsAllSet "gpt-4" "inst" modelSupportsTools [toolW]).2.2.2.2.2.2.2.1⟩
